import Mathlib

/-!
SmallBank client: workload model and verification engine.

A shallow embedding of `samples/apps/smallbank/clients/small_bank_client.cpp`.

* `size_t` values are natural numbers below `2 ^ 64`; every `size_t` operation of the
  source is written with an explicit `% 2 ^ 64`, and the `unsigned int` locals of the
  Amalgamate branch with an explicit `% 2 ^ 32`.
* Exceptions are values of `Exn`, and a function that can throw returns `Except Exn _`.
* The remote service behind `conn->call` is a function of the calls made so far on the
  connection and of the current call.
-/

namespace SmallBank

/-! ## Machine integers -/

/-- Number of values of a `size_t` (64 bits). -/
def SIZE_T_MOD : Nat := 2 ^ 64

/-- Number of values of an `unsigned int` (32 bits). -/
def UINT_MOD : Nat := 2 ^ 32

/-! ## Options and the client object -/

/-- The fields of `SmallBankClientOptions` (and of its base `PerfOptions`) that the client reads.
All of them are `size_t` values except the flag. -/
structure SmallBankClientOptions where
  total_accounts : Nat
  partition_clients : Bool
  client_id : Nat
  num_transactions : Nat
deriving Repr, DecidableEq

/-- The data members of `SmallBankClient`: the options and the owned range `[from, to)`. -/
structure SmallBankClient where
  options : SmallBankClientOptions
  from_ : Nat
  to_ : Nat
deriving Repr, DecidableEq

/-- The constructor `SmallBankClient::SmallBankClient`: `from = 0; to = total_accounts;` and, when
`partition_clients` is set, `from = client_id * total_accounts; to = from + total_accounts;`
in `size_t` arithmetic. -/
def SmallBankClient.new (o : SmallBankClientOptions) : SmallBankClient :=
  let from0 := 0
  let to0 := o.total_accounts
  if o.partition_clients then
    let from1 := (o.client_id * o.total_accounts) % SIZE_T_MOD
    let to1 := (from1 + o.total_accounts) % SIZE_T_MOD
    { options := o, from_ := from1, to_ := to1 }
  else
    { options := o, from_ := from0, to_ := to0 }

/-- The account identifiers a client owns: those visited by the loop
`for (auto i = from; i < to; i++)` of `print_accounts`, which are also the identifiers the
creation request `AccountsSerializer(from, to, ..)` stands for. -/
def SmallBankClient.owns (c : SmallBankClient) (x : Nat) : Prop :=
  c.from_ ≤ x ∧ x < c.to_

instance (c : SmallBankClient) (x : Nat) : Decidable (c.owns x) := by
  unfold SmallBankClient.owns; infer_instance

/-- The client instance number `i` of a run configured by `o`: same options, `client_id = i`. -/
def instance_of (o : SmallBankClientOptions) (i : Nat) : SmallBankClient :=
  SmallBankClient.new { o with client_id := i }

/-- The range-partitioning property for `K` client instances: the owned ranges of instances
`0 .. K-1` are pairwise disjoint and their union is `[0, K * total_accounts)`. -/
def PartitionsAccountSpace (o : SmallBankClientOptions) (K : Nat) : Prop :=
  (∀ i j, i < K → j < K → i ≠ j → ∀ x, ¬ ((instance_of o i).owns x ∧ (instance_of o j).owns x)) ∧
  (∀ x, x < K * o.total_accounts ↔ ∃ i, i < K ∧ (instance_of o i).owns x)

/-- The reference definition `computeRange` of the specification (section 4.1):
`{0, total_accounts}` without partitioning, and
`{client_id*total_accounts, client_id*total_accounts + total_accounts}` with it, the product and
the sum being those of the integers. -/
def computeRange (total_accounts client_id : Nat) (partition_clients : Bool) : Nat × Nat :=
  if partition_clients then
    (client_id * total_accounts, client_id * total_accounts + total_accounts)
  else
    (0, total_accounts)

/-! ## Responses, requests and JSON values -/

/-- The exceptions the client can raise: `std::logic_error` and `std::runtime_error` thrown by
the client itself, and the `type_error` of the JSON library's `get<T>()`; each carries its
message text. -/
inductive Exn where
  | logic_error (what : String)
  | runtime_error (what : String)
  | type_error (what : String)
deriving Repr, DecidableEq

/-- `RpcTlsClient::Response`: the HTTP status and the body, one character per byte. -/
structure Response where
  status : Nat
  body : String
deriving Repr, DecidableEq

/-- The logical content of a request buffer, named after the serializer that builds it
(`BankSerializer`, `TransactionSerializer`, `AmalgamateSerializer`, `AccountsSerializer`) and
holding the serializer's constructor arguments. -/
inductive Payload where
  | bank (name : String)
  | transaction (name : String) (value : Int)
  | amalgamate (name_src : String) (name_dest : String)
  | accounts (from_ : Nat) (to_ : Nat) (checking_amt : Int) (savings_amt : Int)
deriving Repr, DecidableEq

/-- One `conn->call(method, buffer)`. -/
structure Request where
  method : String
  payload : Payload
deriving Repr, DecidableEq

/-- The service seen through one connection: the response to a call, given the calls made
earlier on the connection (oldest first) and the call itself. Every deterministic service,
stateful or not, is such a function. -/
abbrev Connection := List Request → Request → Response

/-- A `nlohmann::json` value. A floating-point number is kept as the bit pattern of its
double. -/
inductive Json where
  | null
  | boolean (b : Bool)
  | number_integer (i : Int)
  | number_unsigned (n : Nat)
  | number_float (bits : Nat)
  | string (s : String)
  | array (elems : List Json)
  | object (members : List (String × Json))

/-- The functions the client calls that are declared outside this source file, taken as
parameters: `http::status_success`, `RpcTlsClient::get_error`, the balance read by
`BalanceDeserializer`, `json::dump`, and the casts of a double to `size_t` and to `int64_t`. -/
structure Env where
  status_success : Nat → Bool
  get_error : Response → String
  balance : String → Int
  dump : Json → String
  double_to_size_t : Nat → Nat
  double_to_int64 : Nat → Int

/-- The search of `std::string::find`, started at offset `pos` of the text whose remainder is
the list: the first offset at which `needle` occurs, `none` standing for `npos`. -/
def find_from (needle : List Char) : List Char → Nat → Option Nat
  | [], pos => if needle.isPrefixOf [] then some pos else none
  | c :: cs, pos => if needle.isPrefixOf (c :: cs) then some pos else find_from needle cs (pos + 1)

/-- The call `s.find(needle)`: `none` is `string::npos`. -/
def string_find (s needle : String) : Option Nat := find_from needle.data s.data 0

/-- The text of `s.c_str()`: the characters of `s` before its first 0x00 byte. -/
def c_str (s : String) : String :=
  String.mk (s.data.takeWhile fun ch => ch != Char.ofNat 0)

/-- The method `SmallBankClient::check_response`. The searches run over the whole of
`error_msg`, a `std::string` that may hold 0x00 bytes; the `logic_error` constructed from it
reports, as `what()`, the C string of `error_msg`. -/
def check_response (env : Env) (r : Response) : Except Exn Bool :=
  if env.status_success r.status = false then
    let error_msg := r.body
    if string_find error_msg "Not enough money in savings account" = none ∧
        string_find error_msg "Account already exists in accounts table" = none then
      throw (Exn.logic_error (c_str error_msg))
    else
      pure true
  else
    pure true

/-- The call `j.find(key)`: the member of an object with that key; `none` is `end()`, which is
also the result on every value that is not an object. -/
def Json.find (j : Json) (key : String) : Option Json :=
  match j with
  | .object members => members.lookup key
  | _ => none

/-- The call `j.is_null()`. -/
def Json.is_null : Json → Bool
  | .null => true
  | _ => false

/-- The call `j.is_array()`. -/
def Json.is_array : Json → Bool
  | .array _ => true
  | _ => false

/-- The conversion `static_cast<size_t>` of an integer. -/
def to_size_t (i : Int) : Nat := (i % (SIZE_T_MOD : Int)).toNat
/-- The conversion `static_cast<int64_t>` of an integer. -/
def to_int64 (i : Int) : Int := (i + 2 ^ 63) % 2 ^ 64 - 2 ^ 63

/-- The call `j.get<size_t>()`, where `size_t` is the library's unsigned number type (64-bit
Linux): a number is cast, any other value raises `type_error`. -/
def Json.get_size_t (env : Env) : Json → Except Exn Nat
  | .number_unsigned n => pure (n % SIZE_T_MOD)
  | .number_integer i => pure (to_size_t i)
  | .number_float bits => pure (env.double_to_size_t bits % SIZE_T_MOD)
  | _ => throw (Exn.type_error "type must be number")

/-- The call `j.get<int64_t>()`, where `int64_t` is the library's integer number type: a number
is cast, any other value raises `type_error`. -/
def Json.get_int64 (env : Env) : Json → Except Exn Int
  | .number_unsigned n => pure (to_int64 n)
  | .number_integer i => pure (to_int64 i)
  | .number_float bits => pure (to_int64 (env.double_to_int64 bits))
  | _ => throw (Exn.type_error "type must be number")

/-- The lambda `expected_type_msg` of `verify_state`, with its captured `prefix`. -/
def expected_type_msg (env : Env) (label : String) (problematic : Json) : String :=
  label ++ " state should be a list of (account, balance) objects, not: " ++ env.dump problematic

/-- The balance query of `verify_state` for an account:
`conn->call("SmallBank_balance", BankSerializer(to_string(account)).get_buffer())`. -/
def balance_request (account : Nat) : Request :=
  { method := "SmallBank_balance", payload := Payload.bank (toString account) }

/-- The loop `for (const auto& entry : expected)` of `verify_state`, run on the entries still
to visit with the calls made so far on the connection. The result is what the loop does (it
returns, or the exception it throws) and all the calls made on the connection, oldest
first. -/
def verify_entries (env : Env) (conn : Connection) (label : String) :
    List Json → List Request → Except Exn Unit × List Request
  | [], log => (pure (), log)
  | entry :: rest, log =>
    match entry.find "account", entry.find "balance" with
    | some account_it, some balance_it =>
      match account_it.get_size_t env with
      | .error e => (.error e, log)
      | .ok account =>
        let request := balance_request account
        let response := conn log request
        let log1 := log ++ [request]
        if env.status_success response.status = false then
          (throw (Exn.runtime_error
            ("Error in verification response: " ++ env.get_error response)), log1)
        else
          match balance_it.get_int64 env with
          | .error e => (.error e, log1)
          | .ok expected_balance =>
            let actual_balance := env.balance response.body
            if expected_balance ≠ actual_balance then
              (throw (Exn.runtime_error
                ("Expected account " ++ env.dump account_it ++ " to have balance " ++
                  toString expected_balance ++ ", actual balance is " ++
                  toString actual_balance)), log1)
            else
              verify_entries env conn label rest log1
    | _, _ => (throw (Exn.runtime_error (expected_type_msg env label entry)), log)

/-- The method `SmallBankClient::verify_state`, on a fresh connection. -/
def verify_state (env : Env) (conn : Connection) (label : String) (expected : Json) :
    Except Exn Unit × List Request :=
  if expected.is_null then
    (pure (), [])
  else
    match expected with
    | .array entries => verify_entries env conn label entries []
    | _ => (throw (Exn.runtime_error (expected_type_msg env label expected)), [])

/-- The compact dump of a value that holds no array and no object (a floating-point number is
not rendered). -/
def demo_dump_scalar : Json → String
  | .null => "null"
  | .boolean b => if b then "true" else "false"
  | .number_integer i => toString i
  | .number_unsigned n => toString n
  | .string s => "\"" ++ s ++ "\""
  | _ => "?"

/-- The compact dump of a value whose elements or members are scalars. -/
def demo_dump : Json → String
  | .array elems => "[" ++ ",".intercalate (elems.map demo_dump_scalar) ++ "]"
  | .object members =>
    "\x7b" ++ ",".intercalate (members.map fun m => "\"" ++ m.1 ++ "\":" ++ demo_dump_scalar m.2)
      ++ "\x7d"
  | j => demo_dump_scalar j

/-- A concrete environment for examples: a status is a success when it is `2xx`, the balance of
a body is the little-endian value of its bytes, and values are dumped by `demo_dump`. -/
def demo_env : Env where
  status_success := fun status => status / 100 == 2
  get_error := fun r => r.body
  balance := fun body => to_int64 (body.data.foldr (fun c acc => c.toNat + 256 * acc) 0)
  dump := demo_dump
  double_to_size_t := fun _ => 0
  double_to_int64 := fun _ => 0

/-- A service for examples: it reports balance 90 (body `Z`) for account 1 and balance 50
(body `2`) for every other account. -/
def demo_conn : Connection := fun _ request =>
  if request = balance_request 1 then ⟨200, "Z"⟩ else ⟨200, "2"⟩

/-- The text `sub` occurs in `text` as an exact, case-sensitive substring: a contiguous run of
equal characters. -/
def contains_substring (text sub : String) : Prop := sub.data <:+: text.data

/-- The responses the specification classifies as fatal: a status that is not a success and a
body containing neither of the two recognized rejection messages. -/
def Fatal (env : Env) (r : Response) : Prop :=
  env.status_success r.status = false ∧
    ¬ contains_substring r.body "Not enough money in savings account" ∧
    ¬ contains_substring r.body "Account already exists in accounts table"

/-! ## Reading a fixture entry -/

/-- An entry has both an `account` and a `balance` field. -/
def has_fields (entry : Json) : Prop :=
  (entry.find "account").isSome = true ∧ (entry.find "balance").isSome = true

instance (entry : Json) : Decidable (has_fields entry) := by
  unfold has_fields; infer_instance

/-- The account and the expected balance an entry stands for, when it has both fields and both
hold numbers: the values `account_it->get<size_t>()` and `balance_it->get<int64_t>()`. -/
def entry_fields (env : Env) (entry : Json) : Option (Nat × Int) :=
  match entry.find "account", entry.find "balance" with
  | some account_it, some balance_it =>
    match account_it.get_size_t env, balance_it.get_int64 env with
    | .ok account, .ok expected_balance => some (account, expected_balance)
    | _, _ => none
  | _, _ => none

/-- An entry is well formed when it has an `account` and a `balance` field holding numbers. -/
def well_formed (env : Env) (entry : Json) : Prop := (entry_fields env entry).isSome = true

instance (env : Env) (entry : Json) : Decidable (well_formed env entry) := by
  unfold well_formed; infer_instance

/-- The account of an entry (0 when the entry is not well formed). -/
def entry_account (env : Env) (entry : Json) : Nat := ((entry_fields env entry).getD (0, 0)).1

/-- The expected balance of an entry (0 when the entry is not well formed). -/
def entry_balance (env : Env) (entry : Json) : Int := ((entry_fields env entry).getD (0, 0)).2

/-- The response of the service to the balance query for the account at position `j` of
`accounts`, asked after the calls of `log` and the balance queries for the accounts before
position `j`, in order. -/
def response_at (conn : Connection) (log : List Request) (accounts : List Nat) (j : Nat) :
    Response :=
  conn (log ++ (accounts.take j).map balance_request) (balance_request (accounts.getD j 0))

/-- The text of the mismatch error for an entry and the balance the service reported. -/
def mismatch_msg (env : Env) (entry : Json) (actual_balance : Int) : String :=
  "Expected account " ++ env.dump ((entry.find "account").getD Json.null) ++
    " to have balance " ++ toString (entry_balance env entry) ++ ", actual balance is " ++
    toString actual_balance

/-- A service for examples: it reports balance 100 (body `d`) for account 1 and balance 40
(body `(`) for every other account. -/
def demo_conn_late : Connection := fun _ request =>
  if request = balance_request 1 then ⟨200, "d"⟩ else ⟨200, "("⟩

/-- A service for examples: every call succeeds and reports balance 0 (an empty body). -/
def demo_conn_zero : Connection := fun _ _ => ⟨200, ""⟩

/-- The entries of the fixture `[{account: 1, balance: 100}, {account: 2, balance: 50}]`. -/
def demo_entries : List Json :=
  [.object [("account", .number_unsigned 1), ("balance", .number_integer 100)],
   .object [("account", .number_unsigned 2), ("balance", .number_integer 50)]]

/-- The entry `{account: "x", balance: 0}`: both fields are present, the account is a string. -/
def demo_entry_text_account : Json :=
  .object [("account", .string "x"), ("balance", .number_integer 0)]

/-- The entry `{account: 7}`: the balance field is missing. -/
def demo_entry_no_balance : Json := .object [("account", .number_unsigned 7)]

/-! ## Transaction generation -/

/-- Modelled from the spec: `rand_range(exclusive_upper_bound)` is declared in `perf_client.h`,
which is not among the sources. The specification draws accounts as
`range.from + rand_in[0, range.size())`: the value returned lies in `[0, bound)`. -/
def rand_range_returns (exclusive_upper_bound : Int) (value : Int) : Prop :=
  0 ≤ value ∧ value < exclusive_upper_bound

instance (b v : Int) : Decidable (rand_range_returns b v) := by
  unfold rand_range_returns; infer_instance

/-- Modelled from the spec: the two-argument `rand_range(lower, upper)` of `perf_client.h`, which
is not among the sources; as for the one-argument form the upper bound is exclusive: the value
returned lies in `[lower, upper)`. -/
def rand_range2_returns (inclusive_lower_bound exclusive_upper_bound : Int) (value : Int) : Prop :=
  inclusive_lower_bound ≤ value ∧ value < exclusive_upper_bound

instance (l u v : Int) : Decidable (rand_range2_returns l u v) := by
  unfold rand_range2_returns; infer_instance

/-- The values the calls to `rand_range` return during one iteration of the loop of
`prepare_transactions`: `account` for `rand_range(options.total_accounts)`, `other` for
`rand_range(options.total_accounts - 1)` (Amalgamate only) and `amount` for the
`rand_range<int>` call of the branch. -/
structure Draws where
  account : Nat
  other : Nat
  amount : Int
deriving Repr, DecidableEq

/-- The `size_t` expression `from + rand_range(options.total_accounts)`, for a drawn value. -/
def drawn_account (c : SmallBankClient) (draw : Nat) : Nat :=
  (c.from_ + draw) % SIZE_T_MOD

/-- The Amalgamate branch up to the serializer: `src_account` and `dest_account` are
`unsigned int`, so the `size_t` sums are truncated to 32 bits and the increment wraps at
`2 ^ 32`. The result is `(src_account, dest_account)`. -/
def amalgamate_accounts (c : SmallBankClient) (a b : Nat) : Nat × Nat :=
  let src_account := drawn_account c a % UINT_MOD
  let dest_account := drawn_account c b % UINT_MOD
  let dest_account := if dest_account ≥ src_account then (dest_account + 1) % UINT_MOD
    else dest_account
  (src_account, dest_account)

/-- The `switch ((TransactionTypes)operation)` of `prepare_transactions`: the buffer built for an
operation value, or the `logic_error` of the `default` label. -/
def request_payload (c : SmallBankClient) (operation : Nat) (r : Draws) : Except Exn Payload :=
  match operation with
  | 0 => pure (Payload.transaction (toString (drawn_account c r.account)) r.amount)
  | 1 =>
    let accounts := amalgamate_accounts c r.account r.other
    pure (Payload.amalgamate (toString accounts.1) (toString accounts.2))
  | 2 => pure (Payload.transaction (toString (drawn_account c r.account)) r.amount)
  | 3 => pure (Payload.transaction (toString (drawn_account c r.account)) (r.amount + 1))
  | 4 => pure (Payload.bank (toString (drawn_account c r.account)))
  | _ => throw (Exn.logic_error "Unknown operation")

/-- A service for examples: it reports balance 100 (body `d`) for account 1 and balance 50
(body `2`) for every other account. -/
def demo_conn_match : Connection := fun _ request =>
  if request = balance_request 1 then ⟨200, "d"⟩ else ⟨200, "2"⟩

/-! ## Preparing the batch -/

/-- The table `OPERATION_C_STR[5]` of method names, indexed by the operation value. -/
def OPERATION_C_STR : List String :=
  ["SmallBank_transact_savings", "SmallBank_amalgamate", "SmallBank_write_check",
    "SmallBank_deposit_checking", "SmallBank_balance"]

/-- How a piece of code ends: it returns a value, it throws, or it reads an array past its end
(undefined behaviour). -/
inductive Outcome (α : Type) where
  | returned (value : α)
  | thrown (e : Exn)
  | out_of_bounds
deriving Repr, DecidableEq

/-- The arguments of one call `add_prepared_tx(method, params, is_write, index)`. -/
structure AddPreparedTx where
  method : String
  params : Payload
  is_write : Bool
  index : Nat
deriving Repr, DecidableEq

/-- The body of the loop of `prepare_transactions` for an operation value and iteration `i`: the
`switch`, then the read of `OPERATION_C_STR[operation]` and the call of `add_prepared_tx`, whose
arguments are the result. -/
def prepare_step (c : SmallBankClient) (operation : Nat) (r : Draws) (i : Nat) :
    Outcome AddPreparedTx :=
  match request_payload c operation r with
  | .error e => Outcome.thrown e
  | .ok fb =>
    match OPERATION_C_STR[operation]? with
    | none => Outcome.out_of_bounds
    | some method =>
      Outcome.returned { method := method, params := fb, is_write := operation != 4, index := i }

/-- The loop `for (i = 0; i < options.num_transactions; i++)` of `prepare_transactions`, from
iteration `i` on with `count` iterations left, `draws i` being the values `rand_range` returns
during iteration `i`. Each iteration sets `operation = 0`. The result is the list of calls of
`add_prepared_tx`, in order. -/
def prepare_loop (c : SmallBankClient) (draws : Nat → Draws) :
    Nat → Nat → Outcome (List AddPreparedTx)
  | 0, _ => Outcome.returned []
  | count + 1, i =>
    match prepare_step c 0 (draws i) i with
    | .thrown e => Outcome.thrown e
    | .out_of_bounds => Outcome.out_of_bounds
    | .returned call =>
      match prepare_loop c draws count (i + 1) with
      | .thrown e => Outcome.thrown e
      | .out_of_bounds => Outcome.out_of_bounds
      | .returned calls => Outcome.returned (call :: calls)

/-- The calls of `add_prepared_tx` made by `SmallBankClient::prepare_transactions`. -/
def prepare_transactions (c : SmallBankClient) (draws : Nat → Draws) :
    Outcome (List AddPreparedTx) :=
  prepare_loop c draws c.options.num_transactions 0

/-- Modelled from the spec: the `TransactionRequest` of the specification, a request "tagged
with its type name, write/read flag, and position index"; its C++ counterpart is declared in
`perf_client.h`, which is not among the sources. -/
structure TransactionRequest where
  type_name : String
  payload : Payload
  is_write : Bool
  sequence_index : Nat
deriving Repr, DecidableEq

/-- Modelled from the spec: `add_prepared_tx` is defined in `perf_client.h`, which is not among
the sources. The request is wrapped with its type name, write flag and position index, and
stored at that position of `prepared_txs`. -/
def add_prepared_tx (prepared_txs : List (Option TransactionRequest)) (call : AddPreparedTx) :
    List (Option TransactionRequest) :=
  prepared_txs.set call.index
    (some { type_name := call.method, payload := call.params, is_write := call.is_write,
            sequence_index := call.index })

/-- The vector `prepared_txs` after `prepared_txs.resize(options.num_transactions)` and the given
calls of `add_prepared_tx`; an empty slot is `none`. -/
def prepared_txs_after (c : SmallBankClient) (calls : List AddPreparedTx) :
    List (Option TransactionRequest) :=
  calls.foldl add_prepared_tx (List.replicate c.options.num_transactions none)

/-- The call of `add_prepared_tx` made by the TransactSavings branch in iteration `i`. -/
def transact_savings_call (c : SmallBankClient) (r : Draws) (i : Nat) : AddPreparedTx :=
  { method := "SmallBank_transact_savings",
    params := Payload.transaction (toString (drawn_account c r.account)) r.amount,
    is_write := true, index := i }

/-- Draws for examples: iteration `i` draws account `i` and amount `i - 50`. -/
def demo_draws : Nat → Draws := fun i => { account := i, other := 0, amount := (i : Int) - 50 }

/-- A client for examples: 10 accounts, no partitioning, 3 transactions. -/
def demo_client : SmallBankClient :=
  SmallBankClient.new
    { total_accounts := 10, partition_clients := false, client_id := 0, num_transactions := 3 }

/-! ## Creation request, parameter check and the two checkpoints -/

/-- The method `SmallBankClient::send_creation_transactions` on a fresh connection: the call of
"SmallBank_create_batch" with `AccountsSerializer(from, to, 1000, 1000)`, then `check_response`.
The result is the response returned (or the exception) and the calls made. -/
def send_creation_transactions (env : Env) (conn : Connection) (c : SmallBankClient) :
    Except Exn Response × List Request :=
  let request : Request :=
    { method := "SmallBank_create_batch", payload := Payload.accounts c.from_ c.to_ 1000 1000 }
  let response := conn [] request
  match check_response env response with
  | .error e => (Except.error e, [request])
  | .ok _ => (Except.ok response, [request])

/-- The method `SmallBankClient::verify_params`; `base_verify_params` is `Base::verify_params`,
defined outside this source file. -/
def verify_params (env : Env) (base_verify_params : Json → Except Exn Unit)
    (c : SmallBankClient) (expected : Json) : Except Exn Unit :=
  match base_verify_params expected with
  | .error e => Except.error e
  | .ok _ =>
    match expected.find "accounts" with
    | none => pure ()
    | some it =>
      match it.get_size_t env with
      | .error e => Except.error e
      | .ok expected_accounts =>
        if expected_accounts ≠ c.options.total_accounts then
          if c.options.partition_clients = false then
            throw (Exn.runtime_error
              ("Verification file is only applicable for " ++ toString expected_accounts ++
                " accounts, but currently have " ++ toString c.options.total_accounts))
          else
            pure ()
        else
          pure ()

/-- The method `SmallBankClient::verify_initial_state`. -/
def verify_initial_state (env : Env) (conn : Connection) (expected : Json) :
    Except Exn Unit × List Request :=
  verify_state env conn "Initial" expected

/-- The method `SmallBankClient::verify_final_state`. -/
def verify_final_state (env : Env) (conn : Connection) (expected : Json) :
    Except Exn Unit × List Request :=
  verify_state env conn "Final" expected

/-- Two runs of `verify_state` under the labels `l1` and `l2` agree up to the label: they made
the same calls, and either they ended the same way (both returned, or both threw the same
exception), or both threw the schema error about the same value, each under its own label. -/
def agree_up_to_label (env : Env) (l1 l2 : String)
    (r1 r2 : Except Exn Unit × List Request) : Prop :=
  r1.2 = r2.2 ∧
    (r1.1 = r2.1 ∨
      ∃ problematic, r1.1 = Except.error (Exn.runtime_error (expected_type_msg env l1 problematic)) ∧
        r2.1 = Except.error (Exn.runtime_error (expected_type_msg env l2 problematic)))

/-- A base-class check for examples: it accepts every fixture. -/
def demo_base_verify_params : Json → Except Exn Unit := fun _ => pure ()

/-- The fixture `{accounts: "10"}`: the account count is given as a string. -/
def demo_params_text_count : Json := .object [("accounts", .string "10")]

/-- A client for examples: 10 accounts per client, partitioning on, client 3. -/
def demo_client_partitioned : SmallBankClient :=
  SmallBankClient.new
    { total_accounts := 10, partition_clients := true, client_id := 3, num_transactions := 3 }

/-- A service for examples: every call fails with status 400 and the body
"Not enough money in savings account". -/
def demo_conn_rejecting : Connection := fun _ _ => ⟨400, "Not enough money in savings account"⟩

/-- A response for examples: status 400 and the five body bytes `a`, `b`, 0x00, `c`, `d`. -/
def demo_response_nul : Response :=
  { status := 400, body := String.mk [Char.ofNat 97, Char.ofNat 98, Char.ofNat 0, Char.ofNat 99,
      Char.ofNat 100] }

/-- A response for examples: status 500 and the body `boom`. -/
def demo_response_boom : Response := { status := 500, body := "boom" }

/-! ## Theorems: account ranges -/

theorem instance_of_from (o : SmallBankClientOptions) (i : Nat) (hpc : o.partition_clients = true)
    (h : i * o.total_accounts < SIZE_T_MOD) :
    (instance_of o i).from_ = i * o.total_accounts := by
  simp [instance_of, SmallBankClient.new, hpc, Nat.mod_eq_of_lt h]

theorem instance_of_to (o : SmallBankClientOptions) (i : Nat) (hpc : o.partition_clients = true)
    (h : i * o.total_accounts + o.total_accounts < SIZE_T_MOD) :
    (instance_of o i).to_ = i * o.total_accounts + o.total_accounts := by
  have h1 : i * o.total_accounts < SIZE_T_MOD := by omega
  simp [instance_of, SmallBankClient.new, hpc, Nat.mod_eq_of_lt h1, Nat.mod_eq_of_lt h]

theorem instance_of_owns (o : SmallBankClientOptions) (K i : Nat)
    (hpc : o.partition_clients = true) (hK : K * o.total_accounts < SIZE_T_MOD) (hi : i < K)
    (x : Nat) :
    (instance_of o i).owns x ↔ i * o.total_accounts ≤ x ∧ x < (i + 1) * o.total_accounts := by
  have hle : (i + 1) * o.total_accounts ≤ K * o.total_accounts :=
    Nat.mul_le_mul_right _ hi
  have hexp : (i + 1) * o.total_accounts = i * o.total_accounts + o.total_accounts := by ring
  have h2 : i * o.total_accounts + o.total_accounts < SIZE_T_MOD := by omega
  have h1 : i * o.total_accounts < SIZE_T_MOD := by omega
  unfold SmallBankClient.owns
  rw [instance_of_from o i hpc h1, instance_of_to o i hpc h2, hexp]

/-- Claim C1 (as amended): in partitioned mode, for every `total_accounts > 0` and every `K` with
`K * total_accounts < 2^64` (no `size_t` overflow), the ranges `[from, to)` computed by the
constructor for `client_id = 0, .., K-1` are pairwise disjoint and their union is exactly
`[0, K * total_accounts)`. -/
theorem partitioned_ranges_disjoint_cover (o : SmallBankClientOptions) (K : Nat)
    (hpc : o.partition_clients = true) (hpos : 0 < o.total_accounts)
    (hK : K * o.total_accounts < SIZE_T_MOD) : PartitionsAccountSpace o K := by
  refine ⟨?_, ?_⟩
  · intro i j hi hj hij x hx
    rw [instance_of_owns o K i hpc hK hi, instance_of_owns o K j hpc hK hj] at hx
    obtain ⟨⟨hi1, hi2⟩, hj1, hj2⟩ := hx
    rcases Nat.lt_or_gt_of_ne hij with h | h
    · have : (i + 1) * o.total_accounts ≤ j * o.total_accounts := Nat.mul_le_mul_right _ h
      omega
    · have : (j + 1) * o.total_accounts ≤ i * o.total_accounts := Nat.mul_le_mul_right _ h
      omega
  · intro x
    constructor
    · intro hx
      have hdiv : x / o.total_accounts < K := (Nat.div_lt_iff_lt_mul hpos).mpr hx
      refine ⟨x / o.total_accounts, hdiv, ?_⟩
      rw [instance_of_owns o K _ hpc hK hdiv]
      constructor
      · exact Nat.div_mul_le_self x o.total_accounts
      · have h1 := Nat.div_add_mod x o.total_accounts
        have h2 := Nat.mod_lt x hpos
        have h3 : (x / o.total_accounts + 1) * o.total_accounts =
            o.total_accounts * (x / o.total_accounts) + o.total_accounts := by ring
        omega
    · rintro ⟨i, hi, hx⟩
      rw [instance_of_owns o K i hpc hK hi] at hx
      have : (i + 1) * o.total_accounts ≤ K * o.total_accounts := Nat.mul_le_mul_right _ hi
      omega

/-- Witness for C1 (as amended): three instances of ten accounts each. -/
theorem partitioned_ranges_disjoint_cover_witness :
    (0 < 10 ∧ 3 * 10 < SIZE_T_MOD) ∧
      PartitionsAccountSpace
        { total_accounts := 10, partition_clients := true, client_id := 0, num_transactions := 0 }
        3 :=
  ⟨by decide,
    partitioned_ranges_disjoint_cover
      { total_accounts := 10, partition_clients := true, client_id := 0, num_transactions := 0 }
      3 rfl (by decide) (by decide)⟩

/-- Counterexample to C1 as stated: with `total_accounts = 2^63` and `K = 3`, the product
`2 * 2^63` wraps to `0`, so instance 2 owns `[0, 2^63)` like instance 0; account 5 belongs to
both, and the ranges are not pairwise disjoint. -/
theorem partitioned_ranges_overlap_on_overflow :
    (0 < 2 ^ 63) ∧
      (instance_of
        { total_accounts := 2 ^ 63, partition_clients := true, client_id := 0,
          num_transactions := 0 } 0).owns 5 ∧
      (instance_of
        { total_accounts := 2 ^ 63, partition_clients := true, client_id := 0,
          num_transactions := 0 } 2).owns 5 ∧
      ¬ PartitionsAccountSpace
        { total_accounts := 2 ^ 63, partition_clients := true, client_id := 0,
          num_transactions := 0 } 3 := by
  have h0 : (instance_of
        { total_accounts := 2 ^ 63, partition_clients := true, client_id := 0,
          num_transactions := 0 } 0).owns 5 := by decide
  have h2 : (instance_of
        { total_accounts := 2 ^ 63, partition_clients := true, client_id := 0,
          num_transactions := 0 } 2).owns 5 := by decide
  exact ⟨by decide, h0, h2, fun h => h.1 0 2 (by decide) (by decide) (by decide) 5 ⟨h0, h2⟩⟩

theorem constructor_range_mod (o : SmallBankClientOptions) (hpc : o.partition_clients = true) :
    (SmallBankClient.new o).from_ = (o.client_id * o.total_accounts) % SIZE_T_MOD ∧
      (SmallBankClient.new o).to_ =
        (o.client_id * o.total_accounts + o.total_accounts) % SIZE_T_MOD := by
  simp [SmallBankClient.new, hpc]

/-- The no-overflow condition of C2 (as amended) cannot be dropped: in partitioned mode, when
`client_id*total_accounts + total_accounts` reaches `2^64` the constructor's range differs from
`computeRange`. -/
theorem constructor_range_ne_computeRange_of_overflow (o : SmallBankClientOptions)
    (hpc : o.partition_clients = true)
    (hover : SIZE_T_MOD ≤ o.client_id * o.total_accounts + o.total_accounts) :
    ((SmallBankClient.new o).from_, (SmallBankClient.new o).to_) ≠
      computeRange o.total_accounts o.client_id o.partition_clients := by
  intro h
  have hto := (constructor_range_mod o hpc).2
  have hlt : (o.client_id * o.total_accounts + o.total_accounts) % SIZE_T_MOD < SIZE_T_MOD :=
    Nat.mod_lt _ (by decide)
  simp only [computeRange, hpc, if_true, Prod.mk.injEq] at h
  omega

/-- Claim C2 (as amended): the range computed by the constructor equals the reference
`computeRange` whenever, in partitioned mode, `client_id*total_accounts + total_accounts` is
below `2^64`: without partitioning it is `(0, total_accounts)` whatever `client_id` is, and with
partitioning it is `(client_id*total_accounts, client_id*total_accounts + total_accounts)`. -/
theorem constructor_range_eq_computeRange (o : SmallBankClientOptions)
    (hfit : o.partition_clients = true →
      o.client_id * o.total_accounts + o.total_accounts < SIZE_T_MOD) :
    ((SmallBankClient.new o).from_, (SmallBankClient.new o).to_) =
        computeRange o.total_accounts o.client_id o.partition_clients ∧
      (o.partition_clients = false →
        ((SmallBankClient.new o).from_, (SmallBankClient.new o).to_) = (0, o.total_accounts)) ∧
      (o.partition_clients = true →
        ((SmallBankClient.new o).from_, (SmallBankClient.new o).to_) =
          (o.client_id * o.total_accounts,
            o.client_id * o.total_accounts + o.total_accounts)) := by
  have hfalse : o.partition_clients = false →
      ((SmallBankClient.new o).from_, (SmallBankClient.new o).to_) = (0, o.total_accounts) := by
    intro hpc
    simp [SmallBankClient.new, hpc]
  have htrue : o.partition_clients = true →
      ((SmallBankClient.new o).from_, (SmallBankClient.new o).to_) =
        (o.client_id * o.total_accounts,
          o.client_id * o.total_accounts + o.total_accounts) := by
    intro hpc
    have h := hfit hpc
    have h1 : o.client_id * o.total_accounts < SIZE_T_MOD := by omega
    simp [SmallBankClient.new, hpc, Nat.mod_eq_of_lt h1, Nat.mod_eq_of_lt h]
  refine ⟨?_, hfalse, htrue⟩
  cases hpc : o.partition_clients
  · rw [hfalse hpc]
    simp [computeRange]
  · rw [htrue hpc]
    simp [computeRange]

/-- Witness for C2 (as amended): client 3 of a partitioned run with 10 accounts per client gets
the range `(30, 40)`, the reference value. -/
theorem constructor_range_eq_computeRange_witness :
    ((SmallBankClient.new
        { total_accounts := 10, partition_clients := true, client_id := 3,
          num_transactions := 1 }).from_,
      (SmallBankClient.new
        { total_accounts := 10, partition_clients := true, client_id := 3,
          num_transactions := 1 }).to_) = (30, 40) ∧
      computeRange 10 3 true = (30, 40) :=
  ⟨((constructor_range_eq_computeRange
      { total_accounts := 10, partition_clients := true, client_id := 3,
        num_transactions := 1 } (fun _ => by decide)).1).trans rfl, rfl⟩

/-- Counterexample to C2 as stated: with `total_accounts = 2^63` and `client_id = 2` in
partitioned mode the constructor computes `(0, 2^63)`, the product `2 * 2^63` wrapping to 0,
while the reference formula gives `(2^64, 2^64 + 2^63)`. -/
theorem constructor_range_differs_on_overflow :
    ((SmallBankClient.new
        { total_accounts := 2 ^ 63, partition_clients := true, client_id := 2,
          num_transactions := 1 }).from_,
      (SmallBankClient.new
        { total_accounts := 2 ^ 63, partition_clients := true, client_id := 2,
          num_transactions := 1 }).to_) = (0, 2 ^ 63) ∧
      computeRange (2 ^ 63) 2 true = (2 ^ 64, 2 ^ 64 + 2 ^ 63) ∧
      ((SmallBankClient.new
          { total_accounts := 2 ^ 63, partition_clients := true, client_id := 2,
            num_transactions := 1 }).from_,
        (SmallBankClient.new
          { total_accounts := 2 ^ 63, partition_clients := true, client_id := 2,
            num_transactions := 1 }).to_) ≠ computeRange (2 ^ 63) 2 true := by
  decide

/-! ## Theorems: response classification -/

theorem find_from_eq_none (needle hay : List Char) (pos : Nat) :
    find_from needle hay pos = none ↔ ¬ needle <:+: hay := by
  induction hay generalizing pos with
  | nil =>
    simp [find_from, List.infix_nil]
  | cons c cs ih =>
    unfold find_from
    by_cases h : needle.isPrefixOf (c :: cs) = true
    · have hp : needle <+: c :: cs := List.isPrefixOf_iff_prefix.mp h
      simp [h, List.infix_cons_iff, hp]
    · have hp : ¬ needle <+: c :: cs := fun hp => h (List.isPrefixOf_iff_prefix.mpr hp)
      simp [h, List.infix_cons_iff, hp, ih]

theorem string_find_eq_none (s needle : String) :
    string_find s needle = none ↔ ¬ contains_substring s needle := by
  unfold string_find contains_substring
  exact find_from_eq_none _ _ _

theorem c_str_eq_self (s : String) (h : ∀ ch, ch ∈ s.data → ch ≠ Char.ofNat 0) :
    c_str s = s := by
  unfold c_str
  have ht : s.data.takeWhile (fun ch => ch != Char.ofNat 0) = s.data := by
    rw [List.takeWhile_eq_self_iff]
    intro ch hch
    simpa using h ch hch
  rw [ht]

/-- Claim C3 (as amended): `check_response` throws exactly on the fatal responses (status not a
success, body containing neither "Not enough money in savings account" nor "Account already
exists in accounts table" as an exact substring); the message of what it throws is the response
body up to its first 0x00 byte, hence the body verbatim when the body holds no 0x00 byte; on
every other response it returns `true`. -/
theorem check_response_throws_iff_fatal (env : Env) (r : Response) :
    ((∃ e, check_response env r = Except.error e) ↔ Fatal env r) ∧
      (∀ e, check_response env r = Except.error e → e = Exn.logic_error (c_str r.body)) ∧
      ((∀ ch, ch ∈ r.body.data → ch ≠ Char.ofNat 0) →
        ∀ e, check_response env r = Except.error e → e = Exn.logic_error r.body) ∧
      (¬ Fatal env r → check_response env r = Except.ok true) := by
  have key : (Fatal env r ∧
        check_response env r = Except.error (Exn.logic_error (c_str r.body))) ∨
      (¬ Fatal env r ∧ check_response env r = Except.ok true) := by
    by_cases hs : env.status_success r.status = false
    · by_cases h1 : contains_substring r.body "Not enough money in savings account"
      · have hf : string_find r.body "Not enough money in savings account" ≠ none :=
          fun h => (string_find_eq_none _ _).mp h h1
        exact Or.inr ⟨fun h => h.2.1 h1, by simp [check_response, hs, hf, pure, Except.pure]⟩
      · have hf1 : string_find r.body "Not enough money in savings account" = none :=
          (string_find_eq_none _ _).mpr h1
        by_cases h2 : contains_substring r.body "Account already exists in accounts table"
        · have hf : string_find r.body "Account already exists in accounts table" ≠ none :=
            fun h => (string_find_eq_none _ _).mp h h2
          exact Or.inr ⟨fun h => h.2.2 h2, by simp [check_response, hs, hf, pure, Except.pure]⟩
        · have hf2 : string_find r.body "Account already exists in accounts table" = none :=
            (string_find_eq_none _ _).mpr h2
          exact Or.inl ⟨⟨hs, h1, h2⟩, by
            simp [check_response, hs, hf1, hf2, throw, throwThe, MonadExceptOf.throw]⟩
    · exact Or.inr ⟨fun h => hs h.1, by simp [check_response, hs, pure, Except.pure]⟩
  rcases key with ⟨hfat, hv⟩ | ⟨hnf, hv⟩
  · refine ⟨⟨fun _ => hfat, fun _ => ⟨_, hv⟩⟩, ?_, ?_, fun h => absurd hfat h⟩
    · intro e he
      rw [hv] at he
      cases he
      rfl
    · intro hnul e he
      rw [hv] at he
      cases he
      rw [c_str_eq_self r.body hnul]
  · refine ⟨⟨?_, fun h => absurd h hnf⟩, ?_, ?_, fun _ => hv⟩
    · rintro ⟨e, he⟩
      rw [hv] at he
      cases he
    · intro e he
      rw [hv] at he
      cases he
    · intro _ e he
      rw [hv] at he
      cases he

/-- Witness for C3 (as amended): status 500 with the body `boom` is fatal, and the error thrown
carries `boom`. -/
theorem check_response_throws_iff_fatal_witness :
    check_response demo_env demo_response_boom = Except.error (Exn.logic_error "boom") :=
  have hfatal : Fatal demo_env demo_response_boom :=
    ⟨rfl, (string_find_eq_none _ _).mp rfl, (string_find_eq_none _ _).mp rfl⟩
  have hthrows := (check_response_throws_iff_fatal demo_env demo_response_boom).1.mpr hfatal
  hthrows.elim fun e he =>
    he.trans (congrArg Except.error
      ((check_response_throws_iff_fatal demo_env demo_response_boom).2.2.1 (by decide) e he))

/-- Counterexample to C3 as stated: for status 400 and the body `ab`, 0x00, `cd`, a fatal
response, the message of the error thrown is `ab`, not the body. -/
theorem check_response_truncates_at_nul :
    Fatal demo_env demo_response_nul ∧
      check_response demo_env demo_response_nul = Except.error (Exn.logic_error "ab") ∧
      Exn.logic_error "ab" ≠ Exn.logic_error demo_response_nul.body :=
  ⟨⟨rfl, (string_find_eq_none _ _).mp rfl, (string_find_eq_none _ _).mp rfl⟩, rfl, by decide⟩

/-! ## Theorems: state verification -/

theorem entry_fields_eq_some (env : Env) (e : Json) (a : Nat) (b : Int)
    (h : entry_fields env e = some (a, b)) :
    ∃ ja jb, e.find "account" = some ja ∧ e.find "balance" = some jb ∧
      ja.get_size_t env = Except.ok a ∧ jb.get_int64 env = Except.ok b := by
  unfold entry_fields at h
  split at h
  · rename_i ja jb hja hjb
    split at h
    · rename_i a1 b1 ha hb
      simp only [Option.some.injEq, Prod.mk.injEq] at h
      exact ⟨ja, jb, hja, hjb, by rw [ha, h.1], by rw [hb, h.2]⟩
    · exact absurd h (by simp)
  · exact absurd h (by simp)

theorem verify_entries_cons_of_fields (env : Env) (conn : Connection) (label : String)
    (e : Json) (rest : List Json) (log : List Request) (a : Nat) (b : Int)
    (h : entry_fields env e = some (a, b)) :
    verify_entries env conn label (e :: rest) log =
      if env.status_success (conn log (balance_request a)).status = false then
        (Except.error (Exn.runtime_error ("Error in verification response: " ++
          env.get_error (conn log (balance_request a)))), log ++ [balance_request a])
      else if b ≠ env.balance (conn log (balance_request a)).body then
        (Except.error (Exn.runtime_error
          (mismatch_msg env e (env.balance (conn log (balance_request a)).body))),
          log ++ [balance_request a])
      else verify_entries env conn label rest (log ++ [balance_request a]) := by
  obtain ⟨ja, jb, hja, hjb, ha, hb⟩ := entry_fields_eq_some env e a b h
  have hbal : entry_balance env e = b := by simp [entry_balance, h]
  simp only [verify_entries, hja, hjb, ha, hb, mismatch_msg, hbal, Option.getD_some, throw,
    throwThe, MonadExceptOf.throw]

theorem verify_entries_cons_of_not_has_fields (env : Env) (conn : Connection) (label : String)
    (e : Json) (rest : List Json) (log : List Request) (h : ¬ has_fields e) :
    verify_entries env conn label (e :: rest) log =
      (Except.error (Exn.runtime_error (expected_type_msg env label e)), log) := by
  unfold has_fields at h
  cases hja : e.find "account" with
  | none => simp [verify_entries, hja, throw, throwThe, MonadExceptOf.throw]
  | some ja =>
    cases hjb : e.find "balance" with
    | none => simp [verify_entries, hja, hjb, throw, throwThe, MonadExceptOf.throw]
    | some jb => simp [hja, hjb] at h

theorem verify_entries_cons_of_fields_none (env : Env) (conn : Connection) (label : String)
    (e : Json) (rest : List Json) (log : List Request) (h : entry_fields env e = none) :
    ∃ x calls, verify_entries env conn label (e :: rest) log = (Except.error x, calls) := by
  cases hja : e.find "account" with
  | none =>
    simp only [verify_entries, hja, throw, throwThe, MonadExceptOf.throw]
    exact ⟨_, _, rfl⟩
  | some ja =>
    cases hjb : e.find "balance" with
    | none =>
      simp only [verify_entries, hja, hjb, throw, throwThe, MonadExceptOf.throw]
      exact ⟨_, _, rfl⟩
    | some jb =>
      cases ha : ja.get_size_t env with
      | error x =>
        simp only [verify_entries, hja, hjb, ha]
        exact ⟨_, _, rfl⟩
      | ok a =>
        cases hb : jb.get_int64 env with
        | ok b => simp [entry_fields, hja, hjb, ha, hb] at h
        | error x =>
          by_cases hs : env.status_success (conn log (balance_request a)).status = false
          · simp only [verify_entries, hja, hjb, ha, hb, hs, throw, throwThe,
              MonadExceptOf.throw, if_true]
            exact ⟨_, _, rfl⟩
          · simp only [verify_entries, hja, hjb, ha, hb, hs, if_false]
            exact ⟨_, _, rfl⟩

theorem response_at_zero (conn : Connection) (log : List Request) (a : Nat) (as : List Nat) :
    response_at conn log (a :: as) 0 = conn log (balance_request a) := by
  simp [response_at]

theorem response_at_succ (conn : Connection) (log : List Request) (a : Nat) (as : List Nat)
    (j : Nat) :
    response_at conn log (a :: as) (j + 1) = response_at conn (log ++ [balance_request a]) as j := by
  simp [response_at]

theorem verify_entries_append_ok (env : Env) (conn : Connection) (label : String)
    (pre rest : List Json) (log calls : List Request)
    (h : verify_entries env conn label pre log = (Except.ok (), calls)) :
    verify_entries env conn label (pre ++ rest) log = verify_entries env conn label rest calls := by
  induction pre generalizing log with
  | nil =>
    simp only [verify_entries, pure, Except.pure, Prod.mk.injEq] at h
    simp [h.2]
  | cons e es ih =>
    cases hf : entry_fields env e with
    | none =>
      obtain ⟨x, c, hx⟩ := verify_entries_cons_of_fields_none env conn label e es log hf
      rw [hx] at h
      simp at h
    | some p =>
      obtain ⟨a, b⟩ := p
      rw [verify_entries_cons_of_fields env conn label e es log a b hf] at h
      rw [List.cons_append, verify_entries_cons_of_fields env conn label e (es ++ rest) log a b hf]
      split at h
      · simp at h
      · split at h
        · simp at h
        · rename_i h1 h2
          rw [if_neg h1, if_neg h2]
          exact ih _ h

theorem verify_entries_append_error (env : Env) (conn : Connection) (label : String)
    (pre rest : List Json) (log calls : List Request) (x : Exn)
    (h : verify_entries env conn label pre log = (Except.error x, calls)) :
    verify_entries env conn label (pre ++ rest) log = (Except.error x, calls) := by
  induction pre generalizing log with
  | nil =>
    simp [verify_entries, pure, Except.pure] at h
  | cons e es ih =>
    cases hf : entry_fields env e with
    | none =>
      by_cases hh : has_fields e
      · cases hja : e.find "account" with
        | none => simp [has_fields, hja] at hh
        | some ja =>
          cases hjb : e.find "balance" with
          | none => simp [has_fields, hjb] at hh
          | some jb =>
            simp only [verify_entries, hja, hjb, List.cons_append] at h ⊢
            cases ha : ja.get_size_t env with
            | error y => simpa [ha] using h
            | ok a =>
              cases hb : jb.get_int64 env with
              | ok b => simp [entry_fields, hja, hjb, ha, hb] at hf
              | error y =>
                simp only [ha, hb] at h ⊢
                split
                · rename_i hs
                  simpa [hs] using h
                · rename_i hs
                  simpa [hs] using h
      · rw [verify_entries_cons_of_not_has_fields env conn label e es log hh] at h
        rw [List.cons_append, verify_entries_cons_of_not_has_fields env conn label e _ log hh]
        exact h
    | some p =>
      obtain ⟨a, b⟩ := p
      rw [verify_entries_cons_of_fields env conn label e es log a b hf] at h
      rw [List.cons_append, verify_entries_cons_of_fields env conn label e (es ++ rest) log a b hf]
      split
      · rename_i h1
        rw [if_pos h1] at h
        exact h
      · rename_i h1
        rw [if_neg h1] at h
        split
        · rename_i h2
          rw [if_pos h2] at h
          exact h
        · rename_i h2
          rw [if_neg h2] at h
          exact ih _ h

theorem entry_account_of_fields (env : Env) (e : Json) (a : Nat) (b : Int)
    (h : entry_fields env e = some (a, b)) : entry_account env e = a := by
  simp [entry_account, h]

theorem entry_balance_of_fields (env : Env) (e : Json) (a : Nat) (b : Int)
    (h : entry_fields env e = some (a, b)) : entry_balance env e = b := by
  simp [entry_balance, h]

theorem verify_entries_first_mismatch (env : Env) (conn : Connection) (label : String)
    (entries : List Json) (log : List Request) (k : Nat)
    (hwf : ∀ e, e ∈ entries → well_formed env e)
    (hsucc : ∀ l req, env.status_success (conn l req).status = true)
    (hk : k < entries.length)
    (hbefore : ∀ j, j < k →
      env.balance (response_at conn log (entries.map (entry_account env)) j).body =
        entry_balance env (entries.getD j Json.null))
    (hmis : env.balance (response_at conn log (entries.map (entry_account env)) k).body ≠
        entry_balance env (entries.getD k Json.null)) :
    verify_entries env conn label entries log =
      (Except.error (Exn.runtime_error (mismatch_msg env (entries.getD k Json.null)
          (env.balance (response_at conn log (entries.map (entry_account env)) k).body))),
        log ++ ((entries.map (entry_account env)).take (k + 1)).map balance_request) := by
  induction entries generalizing log k with
  | nil => simp at hk
  | cons e es ih =>
    have hwe : well_formed env e := hwf e (List.mem_cons_self _ _)
    unfold well_formed at hwe
    obtain ⟨p, hp⟩ := Option.isSome_iff_exists.mp hwe
    obtain ⟨a, b⟩ := p
    have hacc := entry_account_of_fields env e a b hp
    have hbal := entry_balance_of_fields env e a b hp
    have hs : ¬ env.status_success (conn log (balance_request a)).status = false := by
      rw [hsucc]; simp
    rw [verify_entries_cons_of_fields env conn label e es log a b hp, if_neg hs]
    cases k with
    | zero =>
      simp only [List.map_cons, hacc, response_at_zero, List.getD_cons_zero, hbal] at hmis
      have hne : b ≠ env.balance (conn log (balance_request a)).body := fun h => hmis h.symm
      rw [if_pos hne]
      simp [hacc, response_at_zero]
    | succ k =>
      have h0 := hbefore 0 (Nat.succ_pos k)
      simp only [List.map_cons, hacc, response_at_zero, List.getD_cons_zero, hbal] at h0
      have heq : ¬ b ≠ env.balance (conn log (balance_request a)).body := by
        simp [h0]
      rw [if_neg heq]
      have hk1 : k < es.length := by simpa using hk
      have hb1 : ∀ j, j < k →
          env.balance (response_at conn (log ++ [balance_request a])
            (es.map (entry_account env)) j).body = entry_balance env (es.getD j Json.null) := by
        intro j hj
        have := hbefore (j + 1) (Nat.succ_lt_succ hj)
        simpa only [List.map_cons, hacc, response_at_succ, List.getD_cons_succ] using this
      have hm1 : env.balance (response_at conn (log ++ [balance_request a])
            (es.map (entry_account env)) k).body ≠ entry_balance env (es.getD k Json.null) := by
        simpa only [List.map_cons, hacc, response_at_succ, List.getD_cons_succ] using hmis
      rw [ih (log ++ [balance_request a]) k (fun e1 he1 => hwf e1 (List.mem_cons_of_mem _ he1))
        hk1 hb1 hm1]
      simp [hacc, response_at_succ]

theorem verify_entries_ok_iff (env : Env) (conn : Connection) (label : String)
    (entries : List Json) (log : List Request) :
    (verify_entries env conn label entries log).1 = Except.ok () ↔
      (∀ e, e ∈ entries → well_formed env e) ∧
      ∀ j, j < entries.length →
        env.status_success (response_at conn log (entries.map (entry_account env)) j).status
            = true ∧
          env.balance (response_at conn log (entries.map (entry_account env)) j).body =
            entry_balance env (entries.getD j Json.null) := by
  induction entries generalizing log with
  | nil => simp [verify_entries, pure, Except.pure]
  | cons e es ih =>
    cases hf : entry_fields env e with
    | none =>
      obtain ⟨x, c, hx⟩ := verify_entries_cons_of_fields_none env conn label e es log hf
      rw [hx]
      constructor
      · intro h
        simp at h
      · intro h
        have := h.1 e (List.mem_cons_self _ _)
        simp [well_formed, hf] at this
    | some p =>
      obtain ⟨a, b⟩ := p
      have hacc := entry_account_of_fields env e a b hf
      have hbal := entry_balance_of_fields env e a b hf
      have hwe : well_formed env e := by simp [well_formed, hf]
      rw [verify_entries_cons_of_fields env conn label e es log a b hf]
      by_cases hs : env.status_success (conn log (balance_request a)).status = false
      · rw [if_pos hs]
        constructor
        · intro h
          simp at h
        · intro h
          have := (h.2 0 (by simp)).1
          simp only [List.map_cons, hacc, response_at_zero] at this
          rw [this] at hs
          simp at hs
      · rw [if_neg hs]
        have hs1 : env.status_success (conn log (balance_request a)).status = true := by
          simpa using hs
        by_cases hb : b ≠ env.balance (conn log (balance_request a)).body
        · rw [if_pos hb]
          constructor
          · intro h
            simp at h
          · intro h
            have := (h.2 0 (by simp)).2
            simp only [List.map_cons, hacc, response_at_zero, List.getD_cons_zero, hbal] at this
            exact absurd this.symm hb
        · rw [if_neg hb]
          have hb1 : env.balance (conn log (balance_request a)).body = b := by
            by_contra hne
            exact hb (fun h => hne h.symm)
          rw [ih (log ++ [balance_request a])]
          constructor
          · rintro ⟨h1, h2⟩
            refine ⟨?_, ?_⟩
            · intro e1 he1
              rcases List.mem_cons.mp he1 with rfl | he1
              · exact hwe
              · exact h1 e1 he1
            · intro j hj
              cases j with
              | zero =>
                simp only [List.map_cons, hacc, response_at_zero, List.getD_cons_zero, hbal]
                exact ⟨hs1, hb1⟩
              | succ j =>
                simp only [List.map_cons, hacc, response_at_succ, List.getD_cons_succ]
                exact h2 j (by simpa using hj)
          · rintro ⟨h1, h2⟩
            refine ⟨fun e1 he1 => h1 e1 (List.mem_cons_of_mem _ he1), ?_⟩
            intro j hj
            have := h2 (j + 1) (by simpa using hj)
            simpa only [List.map_cons, hacc, response_at_succ, List.getD_cons_succ] using this

theorem verify_entries_ok_calls (env : Env) (conn : Connection) (label : String)
    (entries : List Json) (log : List Request)
    (h : (verify_entries env conn label entries log).1 = Except.ok ()) :
    (verify_entries env conn label entries log).2 =
      log ++ (entries.map (entry_account env)).map balance_request := by
  induction entries generalizing log with
  | nil => simp [verify_entries]
  | cons e es ih =>
    cases hf : entry_fields env e with
    | none =>
      obtain ⟨x, c, hx⟩ := verify_entries_cons_of_fields_none env conn label e es log hf
      rw [hx] at h
      simp at h
    | some p =>
      obtain ⟨a, b⟩ := p
      have hacc := entry_account_of_fields env e a b hf
      rw [verify_entries_cons_of_fields env conn label e es log a b hf] at h ⊢
      split at h
      · simp at h
      · split at h
        · simp at h
        · rename_i h1 h2
          rw [if_neg h1, if_neg h2, ih _ h]
          simp [hacc]

theorem verify_state_array (env : Env) (conn : Connection) (label : String)
    (entries : List Json) :
    verify_state env conn label (Json.array entries) =
      verify_entries env conn label entries [] := by
  simp [verify_state, Json.is_null]

/-- Claim C4: for an array of well-formed entries and a service whose queries all succeed, if
entry `k` is the first entry whose expected balance differs from the balance the service
reports for its account, `verify_state` throws the mismatch error naming entry `k`'s account,
its expected balance and the actual balance, and the calls it made are exactly the balance
queries for entries `0..k`, in order (no entry after `k` is queried). -/
theorem verify_state_first_mismatch (env : Env) (conn : Connection) (label : String)
    (entries : List Json) (k : Nat)
    (hwf : ∀ e, e ∈ entries → well_formed env e)
    (hsucc : ∀ l req, env.status_success (conn l req).status = true)
    (hk : k < entries.length)
    (hbefore : ∀ j, j < k →
      env.balance (response_at conn [] (entries.map (entry_account env)) j).body =
        entry_balance env (entries.getD j Json.null))
    (hmis : env.balance (response_at conn [] (entries.map (entry_account env)) k).body ≠
        entry_balance env (entries.getD k Json.null)) :
    verify_state env conn label (Json.array entries) =
      (Except.error (Exn.runtime_error
          ("Expected account " ++
            env.dump (((entries.getD k Json.null).find "account").getD Json.null) ++
            " to have balance " ++ toString (entry_balance env (entries.getD k Json.null)) ++
            ", actual balance is " ++
            toString (env.balance
              (response_at conn [] (entries.map (entry_account env)) k).body))),
        ((entries.map (entry_account env)).take (k + 1)).map balance_request) := by
  rw [verify_state_array,
    verify_entries_first_mismatch env conn label entries [] k hwf hsucc hk hbefore hmis]
  simp [mismatch_msg]

theorem demo_entries_well_formed : ∀ e, e ∈ demo_entries → well_formed demo_env e := by
  intro e he
  simp only [demo_entries, List.mem_cons, List.mem_singleton, List.not_mem_nil, or_false] at he
  rcases he with rfl | rfl <;> rfl

theorem demo_conn_succeeds :
    ∀ l req, demo_env.status_success (demo_conn l req).status = true := by
  intro l req
  unfold demo_conn
  split <;> rfl

theorem demo_conn_late_succeeds :
    ∀ l req, demo_env.status_success (demo_conn_late l req).status = true := by
  intro l req
  unfold demo_conn_late
  split <;> rfl

/-- Witness for C4: the fixture `[{account:1,balance:100},{account:2,balance:50}]`. When the
service reports 90 for account 1, the mismatch is reported for account 1 (expected 100, actual
90) after the single query for account 1; when it reports 100 for account 1 and 40 for
account 2, the mismatch is reported for account 2 after the queries for accounts 1 and 2. -/
theorem verify_state_first_mismatch_witness :
    verify_state demo_env demo_conn "Initial" (Json.array demo_entries) =
        (Except.error
          (Exn.runtime_error "Expected account 1 to have balance 100, actual balance is 90"),
          [balance_request 1]) ∧
      verify_state demo_env demo_conn_late "Final" (Json.array demo_entries) =
        (Except.error
          (Exn.runtime_error "Expected account 2 to have balance 50, actual balance is 40"),
          [balance_request 1, balance_request 2]) :=
  ⟨(verify_state_first_mismatch demo_env demo_conn "Initial" demo_entries 0
      demo_entries_well_formed demo_conn_succeeds (by decide)
      (fun j hj => absurd hj (Nat.not_lt_zero j)) (by decide)).trans rfl,
    (verify_state_first_mismatch demo_env demo_conn_late "Final" demo_entries 1
      demo_entries_well_formed demo_conn_late_succeeds (by decide)
      (fun j hj => by
        have hj0 : j = 0 := by omega
        subst hj0
        decide)
      (by decide)).trans rfl⟩

/-- Claim C5 (as amended): for an expected array, `verify_state` returns without error if and
only if every entry has an account and a balance field holding numbers, every balance query
returns a success status, and for every entry the balance the service reports for its account
equals the entry's expected balance exactly; when it succeeds, the calls it made are exactly
one "SmallBank_balance" query per entry, in list order, each for that entry's account. -/
theorem verify_state_ok_iff (env : Env) (conn : Connection) (label : String)
    (entries : List Json) :
    ((verify_state env conn label (Json.array entries)).1 = Except.ok () ↔
        (∀ e, e ∈ entries → well_formed env e) ∧
        ∀ j, j < entries.length →
          env.status_success (response_at conn [] (entries.map (entry_account env)) j).status
              = true ∧
            env.balance (response_at conn [] (entries.map (entry_account env)) j).body =
              entry_balance env (entries.getD j Json.null)) ∧
      ((verify_state env conn label (Json.array entries)).1 = Except.ok () →
        (verify_state env conn label (Json.array entries)).2 =
          entries.map
            (fun e => { method := "SmallBank_balance",
                        payload := Payload.bank (toString (entry_account env e)) })) := by
  rw [verify_state_array]
  refine ⟨verify_entries_ok_iff env conn label entries [], ?_⟩
  intro h
  rw [verify_entries_ok_calls env conn label entries [] h]
  simp [balance_request, Function.comp_def]

/-- Witness for C5 (as amended): the fixture `[{account:1,balance:100},{account:2,balance:50}]`
verifies against a service reporting 100 for account 1 and 50 for account 2, with one query
per entry. -/
theorem verify_state_ok_iff_witness :
    (verify_state demo_env demo_conn_match "Initial" (Json.array demo_entries)).1 =
        Except.ok () ∧
      (verify_state demo_env demo_conn_match "Initial" (Json.array demo_entries)).2 =
        [balance_request 1, balance_request 2] :=
  have hok : (verify_state demo_env demo_conn_match "Initial" (Json.array demo_entries)).1 =
      Except.ok () :=
    (verify_state_ok_iff demo_env demo_conn_match "Initial" demo_entries).1.mpr
      ⟨demo_entries_well_formed, fun j hj => by
        have hj2 : j < 2 := hj
        have hcases : j = 0 ∨ j = 1 := by omega
        rcases hcases with rfl | rfl <;> exact ⟨by decide, by decide⟩⟩
  ⟨hok, ((verify_state_ok_iff demo_env demo_conn_match "Initial" demo_entries).2 hok).trans rfl⟩

/-- Counterexample to C5 as stated: the array `[{account: "x", balance: 0}]` against a service
that answers every call with a success status and balance 0. The entry has both fields, every
query the service could be asked succeeds, and the balance it reports equals the expected
balance 0; yet `verify_state` fails, with the `type_error` of `get<size_t>()` on a string, and
makes no call. -/
theorem verify_state_fails_on_text_account :
    (∀ e, e ∈ [demo_entry_text_account] → has_fields e) ∧
      (∀ l req, demo_env.status_success (demo_conn_zero l req).status = true ∧
        Except.ok (demo_env.balance (demo_conn_zero l req).body) =
          ((demo_entry_text_account.find "balance").getD Json.null).get_int64 demo_env) ∧
      verify_state demo_env demo_conn_zero "Initial" (Json.array [demo_entry_text_account]) =
        (Except.error (Exn.type_error "type must be number"), []) ∧
      (verify_state demo_env demo_conn_zero "Initial"
        (Json.array [demo_entry_text_account])).1 ≠ Except.ok () := by
  refine ⟨?_, ?_, rfl, ?_⟩
  · intro e he
    simp only [List.mem_singleton] at he
    subst he
    exact ⟨rfl, rfl⟩
  · intro l req
    constructor
    · show demo_env.status_success 200 = true
      decide
    · rfl
  · intro h
    have h2 : (verify_state demo_env demo_conn_zero "Initial"
        (Json.array [demo_entry_text_account])).1 =
        Except.error (Exn.type_error "type must be number") := rfl
    rw [h2] at h
    exact absurd h (by simp)

/-- Claim C6: for every label, `verify_state` on an absent expected value (JSON null) or on an
empty array returns without error and makes no call. -/
theorem verify_state_noop (env : Env) (conn : Connection) (label : String) :
    verify_state env conn label Json.null = (Except.ok (), []) ∧
      verify_state env conn label (Json.array []) = (Except.ok (), []) := by
  constructor
  · simp [verify_state, Json.is_null, pure, Except.pure]
  · simp [verify_state, Json.is_null, verify_entries, pure, Except.pure]

/-- Claim C7: for a non-null expected value that is not a sequence of objects each having an
account and a balance field, `verify_state` fails with the schema error. If the value is not an
array, the error is thrown before any call and its text is the label, the fixed sentence and
the dump of the value. If it is an array with an entry lacking a field, `verify_state` never
succeeds; and when the entries before such an entry verify, the error text carries the dump of
that entry and the calls made are those for the entries before it only. -/
theorem verify_state_schema_error (env : Env) (conn : Connection) (label : String) :
    (∀ expected, expected.is_null = false → expected.is_array = false →
        verify_state env conn label expected =
          (Except.error (Exn.runtime_error
            (label ++ " state should be a list of (account, balance) objects, not: " ++
              env.dump expected)), [])) ∧
      (∀ entries, (∃ e, e ∈ entries ∧ ¬ has_fields e) →
        (verify_state env conn label (Json.array entries)).1 ≠ Except.ok ()) ∧
      (∀ pre e post calls, ¬ has_fields e →
        verify_state env conn label (Json.array pre) = (Except.ok (), calls) →
        verify_state env conn label (Json.array (pre ++ e :: post)) =
          (Except.error (Exn.runtime_error
            (label ++ " state should be a list of (account, balance) objects, not: " ++
              env.dump e)), calls)) := by
  refine ⟨?_, ?_, ?_⟩
  · intro expected hnull harr
    cases expected <;>
      simp_all [verify_state, Json.is_null, Json.is_array, expected_type_msg, throw, throwThe,
        MonadExceptOf.throw]
  · rintro entries ⟨e, he, hf⟩ hok
    rw [verify_state_array, verify_entries_ok_iff] at hok
    have hw := hok.1 e he
    unfold well_formed at hw
    obtain ⟨p, hp⟩ := Option.isSome_iff_exists.mp hw
    obtain ⟨ja, jb, hja, hjb, -, -⟩ := entry_fields_eq_some env e p.1 p.2 hp
    exact hf ⟨by simp [hja], by simp [hjb]⟩
  · intro pre e post calls hf hpre
    rw [verify_state_array] at hpre ⊢
    rw [verify_entries_append_ok env conn label pre (e :: post) [] calls hpre,
      verify_entries_cons_of_not_has_fields env conn label e post calls hf]
    rfl

/-- Witness for C7: the number 5 is rejected before any call; in the array
`[{account:1,balance:100}, {account:7}, {account:2,balance:50}]`, against a service reporting
100 for account 1, the first entry verifies and the second is reported, without being
queried. -/
theorem verify_state_schema_error_witness :
    verify_state demo_env demo_conn_late "Initial" (Json.number_unsigned 5) =
        (Except.error (Exn.runtime_error
          "Initial state should be a list of (account, balance) objects, not: 5"), []) ∧
      verify_state demo_env demo_conn_late "Final"
          (Json.array (demo_entries.take 1 ++ demo_entry_no_balance :: demo_entries.drop 1)) =
        (Except.error (Exn.runtime_error
          "Final state should be a list of (account, balance) objects, not: \x7b\"account\":7\x7d"),
          [balance_request 1]) :=
  ⟨((verify_state_schema_error demo_env demo_conn_late "Initial").1
      (Json.number_unsigned 5) rfl rfl).trans rfl,
    ((verify_state_schema_error demo_env demo_conn_late "Final").2.2
      (demo_entries.take 1) demo_entry_no_balance (demo_entries.drop 1) [balance_request 1]
      (by decide) rfl).trans rfl⟩

/-! ## Theorems: transaction generation -/

/-- Claim C9: for every value returned by `rand_range<int>(50)`, the amount of the
DepositChecking request is in `[1, 51]` and the amount of the WriteCheck request is in
`[0, 50]`. -/
theorem deposit_and_write_check_amounts (c : SmallBankClient) (r : Draws)
    (hdraw : rand_range_returns 50 r.amount) :
    (∃ name amount, request_payload c 3 r = Except.ok (Payload.transaction name amount) ∧
        1 ≤ amount ∧ amount ≤ 51) ∧
      (∃ name amount, request_payload c 2 r = Except.ok (Payload.transaction name amount) ∧
        0 ≤ amount ∧ amount ≤ 50) := by
  obtain ⟨h0, h50⟩ := hdraw
  refine ⟨⟨_, _, rfl, ?_, ?_⟩, ⟨_, _, rfl, ?_, ?_⟩⟩ <;> omega

/-- Witness for C9: the draw 49 gives the deposit amount 50 and the check amount 49. -/
theorem deposit_and_write_check_amounts_witness :
    rand_range_returns 50 49 ∧
      ((∃ name amount,
          request_payload
            (SmallBankClient.new
              { total_accounts := 10, partition_clients := false, client_id := 0,
                num_transactions := 1 }) 3
            { account := 4, other := 0, amount := 49 } =
              Except.ok (Payload.transaction name amount) ∧
          1 ≤ amount ∧ amount ≤ 51) ∧
        (∃ name amount,
          request_payload
            (SmallBankClient.new
              { total_accounts := 10, partition_clients := false, client_id := 0,
                num_transactions := 1 }) 2
            { account := 4, other := 0, amount := 49 } =
              Except.ok (Payload.transaction name amount) ∧
          0 ≤ amount ∧ amount ≤ 50)) :=
  ⟨by decide, deposit_and_write_check_amounts _ _ (by decide)⟩

/-- Claim C10 (as amended): for every `total_accounts > 0`, `client_id` and partition flag such
that `from + total_accounts` does not overflow (`from + total_accounts < 2^64`), and for every
value returned by the draws, the TransactSavings request names the account
`from + draw`, which is in the owned range `[from, to)`, and carries a signed delta in
`[-50, 50]`. -/
theorem transact_savings_in_range (o : SmallBankClientOptions) (r : Draws)
    (_hpos : 0 < o.total_accounts)
    (hfit : (SmallBankClient.new o).from_ + o.total_accounts < SIZE_T_MOD)
    (hacc : rand_range_returns o.total_accounts r.account)
    (hamt : rand_range2_returns (-50) 50 r.amount) :
    request_payload (SmallBankClient.new o) 0 r =
        Except.ok (Payload.transaction
          (toString ((SmallBankClient.new o).from_ + r.account)) r.amount) ∧
      (SmallBankClient.new o).owns ((SmallBankClient.new o).from_ + r.account) ∧
      -50 ≤ r.amount ∧ r.amount ≤ 50 := by
  obtain ⟨-, ha⟩ := hacc
  obtain ⟨hlo, hhi⟩ := hamt
  have ha1 : r.account < o.total_accounts := by exact_mod_cast ha
  have hto : (SmallBankClient.new o).to_ = (SmallBankClient.new o).from_ + o.total_accounts := by
    unfold SmallBankClient.new at hfit ⊢
    cases hpc : o.partition_clients
    · simp [hpc]
    · simp only [hpc, if_true] at hfit ⊢
      exact Nat.mod_eq_of_lt hfit
  have hd : drawn_account (SmallBankClient.new o) r.account =
      (SmallBankClient.new o).from_ + r.account := by
    have e3 : (SmallBankClient.new o).from_ + r.account < SIZE_T_MOD := by omega
    unfold drawn_account
    exact Nat.mod_eq_of_lt e3
  refine ⟨?_, ?_, hlo, by omega⟩
  · simp [request_payload, hd, pure, Except.pure]
  · unfold SmallBankClient.owns
    rw [hto]
    omega

/-- Witness for C10 (as amended): client 3 of a partitioned run with 10 accounts per client,
the draws 4 and -50. -/
theorem transact_savings_in_range_witness :
    request_payload
        (SmallBankClient.new
          { total_accounts := 10, partition_clients := true, client_id := 3,
            num_transactions := 1 }) 0
        { account := 4, other := 0, amount := -50 } =
        Except.ok (Payload.transaction "34" (-50)) ∧
      (SmallBankClient.new
          { total_accounts := 10, partition_clients := true, client_id := 3,
            num_transactions := 1 }).owns 34 :=
  have h := transact_savings_in_range
    { total_accounts := 10, partition_clients := true, client_id := 3, num_transactions := 1 }
    { account := 4, other := 0, amount := -50 } (by decide) (by decide) (by decide) (by decide)
  ⟨h.1.trans rfl, h.2.1⟩

/-- Counterexample to C10 as stated: with `total_accounts = 2^63` and `client_id = 1` in
partitioned mode, `from = 2^63` and `to = 2^63 + 2^63` wraps to `0`. For the draws 0 and 0 the
TransactSavings request names account `2^63`, which is not in `[from, to)`: no account is. -/
theorem transact_savings_outside_wrapped_range :
    (0 < 2 ^ 63 ∧ rand_range_returns (2 ^ 63) 0 ∧ rand_range2_returns (-50) 50 0) ∧
      (SmallBankClient.new
          { total_accounts := 2 ^ 63, partition_clients := true, client_id := 1,
            num_transactions := 1 }).from_ = 2 ^ 63 ∧
      (SmallBankClient.new
          { total_accounts := 2 ^ 63, partition_clients := true, client_id := 1,
            num_transactions := 1 }).to_ = 0 ∧
      request_payload
          (SmallBankClient.new
            { total_accounts := 2 ^ 63, partition_clients := true, client_id := 1,
              num_transactions := 1 }) 0
          { account := 0, other := 0, amount := 0 } =
          Except.ok (Payload.transaction (toString (2 ^ 63 : Nat)) 0) ∧
      ¬ (SmallBankClient.new
          { total_accounts := 2 ^ 63, partition_clients := true, client_id := 1,
            num_transactions := 1 }).owns (2 ^ 63) ∧
      ∀ x, ¬ (SmallBankClient.new
          { total_accounts := 2 ^ 63, partition_clients := true, client_id := 1,
            num_transactions := 1 }).owns x := by
  refine ⟨by decide, by decide, by decide, rfl, by decide, ?_⟩
  intro x hx
  have h0 : (SmallBankClient.new
          { total_accounts := 2 ^ 63, partition_clients := true, client_id := 1,
            num_transactions := 1 }).to_ = 0 := by decide
  unfold SmallBankClient.owns at hx
  rw [h0] at hx
  omega

/-! ## Theorems: preparing the batch -/

theorem prepare_step_zero (c : SmallBankClient) (r : Draws) (i : Nat) :
    prepare_step c 0 r i = Outcome.returned (transact_savings_call c r i) := by
  simp [prepare_step, request_payload, OPERATION_C_STR, transact_savings_call, pure, Except.pure]

theorem prepare_loop_eq (c : SmallBankClient) (draws : Nat → Draws) (count i : Nat) :
    prepare_loop c draws count i =
      Outcome.returned ((List.range' i count).map fun k => transact_savings_call c (draws k) k) := by
  induction count generalizing i with
  | zero => simp [prepare_loop]
  | succ n ih =>
    simp only [prepare_loop, prepare_step_zero, ih (i + 1), List.range'_succ, List.map_cons]

theorem prepare_transactions_eq (c : SmallBankClient) (draws : Nat → Draws) :
    prepare_transactions c draws =
      Outcome.returned ((List.range c.options.num_transactions).map
        fun k => transact_savings_call c (draws k) k) := by
  rw [prepare_transactions, prepare_loop_eq, List.range_eq_range']

theorem foldl_add_prepared_tx_length (calls : List AddPreparedTx)
    (v : List (Option TransactionRequest)) :
    (calls.foldl add_prepared_tx v).length = v.length := by
  induction calls generalizing v with
  | nil => rfl
  | cons x xs ih => simp [List.foldl_cons, ih, add_prepared_tx]

theorem prepared_txs_after_range (c : SmallBankClient) (f : Nat → AddPreparedTx)
    (hf : ∀ k, (f k).index = k) (m : Nat) (hm : m ≤ c.options.num_transactions) (i : Nat) :
    (prepared_txs_after c ((List.range m).map f))[i]? =
      if i < m then
        some (some { type_name := (f i).method, payload := (f i).params,
                     is_write := (f i).is_write, sequence_index := i })
      else (List.replicate c.options.num_transactions none)[i]? := by
  induction m with
  | zero => simp [prepared_txs_after]
  | succ m ih =>
    have ih1 := ih (by omega)
    unfold prepared_txs_after at ih1 ⊢
    rw [List.range_succ, List.map_append, List.foldl_append]
    simp only [List.map_cons, List.map_nil, List.foldl_cons, List.foldl_nil]
    rw [add_prepared_tx, List.getElem?_set, hf m, foldl_add_prepared_tx_length,
      List.length_replicate]
    by_cases hmi : m = i
    · subst hmi
      simp [hf]
      omega
    · rw [if_neg hmi, ih1]
      by_cases hlt : i < m
      · have : i < m + 1 := by omega
        simp [hlt, this]
      · have : ¬ i < m + 1 := by omega
        simp [hlt, this]

/-- Claim C11: for every budget `n = options.num_transactions` and every sequence of draws,
`prepare_transactions` returns after exactly `n` calls of `add_prepared_tx`; the call of
iteration `i` is the request built in that iteration and carries position index `i`, so the
indices passed are `0, 1, .., n-1`, each once; and `prepared_txs`, resized to `n`, ends with `n`
slots, slot `i` holding the request of iteration `i`. -/
theorem prepare_transactions_fills_each_index (c : SmallBankClient) (draws : Nat → Draws) :
    ∃ calls, prepare_transactions c draws = Outcome.returned calls ∧
      calls.length = c.options.num_transactions ∧
      calls.map (fun call => call.index) = List.range c.options.num_transactions ∧
      (prepared_txs_after c calls).length = c.options.num_transactions ∧
      ∀ i, i < c.options.num_transactions →
        ∃ call, prepare_step c 0 (draws i) i = Outcome.returned call ∧
          calls[i]? = some call ∧ call.index = i ∧
          (prepared_txs_after c calls)[i]? =
            some (some { type_name := call.method, payload := call.params,
                         is_write := call.is_write, sequence_index := i }) := by
  refine ⟨_, prepare_transactions_eq c draws, by simp, ?_, ?_, ?_⟩
  · simp [transact_savings_call, Function.comp_def]
  · simp [prepared_txs_after, foldl_add_prepared_tx_length]
  · intro i hi
    refine ⟨transact_savings_call c (draws i) i, prepare_step_zero c (draws i) i, ?_, rfl, ?_⟩
    · simp [List.getElem?_map, List.getElem?_range hi]
    · rw [prepared_txs_after_range c (fun k => transact_savings_call c (draws k) k)
        (fun k => rfl) c.options.num_transactions (le_refl _) i, if_pos hi]

/-- Claim C13: the loop body as a function of the operation value. For every value outside the
five recognized types (`operation >= 5`) the `switch` throws `logic_error("Unknown operation")`,
so the step ends there: there is no read of `OPERATION_C_STR` and no call of `add_prepared_tx`.
For every recognized value `0..4` the step does not throw: it returns the call of
`add_prepared_tx` for iteration `i`, under the method name the table holds for the value. -/
theorem prepare_step_unknown_operation (c : SmallBankClient) (r : Draws) (i operation : Nat) :
    (5 ≤ operation →
        request_payload c operation r = Except.error (Exn.logic_error "Unknown operation") ∧
          prepare_step c operation r i = Outcome.thrown (Exn.logic_error "Unknown operation")) ∧
      (operation < 5 →
        ∃ call, prepare_step c operation r i = Outcome.returned call ∧ call.index = i ∧
          OPERATION_C_STR[operation]? = some call.method) := by
  constructor
  · intro h
    obtain ⟨k, rfl⟩ : ∃ k, operation = k + 5 := ⟨operation - 5, by omega⟩
    have hp : request_payload c (k + 5) r = Except.error (Exn.logic_error "Unknown operation") := by
      simp [request_payload, throw, throwThe, MonadExceptOf.throw]
    exact ⟨hp, by simp [prepare_step, hp]⟩
  · intro h
    have hcases : operation = 0 ∨ operation = 1 ∨ operation = 2 ∨ operation = 3 ∨ operation = 4 := by
      omega
    rcases hcases with rfl | rfl | rfl | rfl | rfl <;> exact ⟨_, rfl, rfl, rfl⟩

/-- Witness for C13: the operation value 5 throws, the value 4 (GetBalance) returns a call. -/
theorem prepare_step_unknown_operation_witness :
    prepare_step demo_client 5 (demo_draws 0) 0 =
        Outcome.thrown (Exn.logic_error "Unknown operation") ∧
      ∃ call, prepare_step demo_client 4 (demo_draws 0) 0 = Outcome.returned call ∧
        call.index = 0 ∧ OPERATION_C_STR[4]? = some call.method :=
  ⟨((prepare_step_unknown_operation demo_client (demo_draws 0) 0 5).1 (by decide)).2,
    (prepare_step_unknown_operation demo_client (demo_draws 0) 0 4).2 (by decide)⟩

/-- Claim C14: for every transaction count and every sequence of draws, every request
`prepare_transactions` generates is a TransactSavings request: its method name is
"SmallBank_transact_savings" (entry 0 of `OPERATION_C_STR`), its write flag is true and its
buffer is a transaction buffer. No request of another type is generated; in the loop body the
write flag is false for the operation value 4 (GetBalance) only. -/
theorem prepare_transactions_only_transact_savings (c : SmallBankClient)
    (draws : Nat → Draws) :
    (∃ calls, prepare_transactions c draws = Outcome.returned calls ∧
        ∀ call, call ∈ calls →
          call.method = "SmallBank_transact_savings" ∧ call.is_write = true ∧
            ∃ name amount, call.params = Payload.transaction name amount) ∧
      OPERATION_C_STR[0]? = some "SmallBank_transact_savings" ∧
      (∀ operation r i call, prepare_step c operation r i = Outcome.returned call →
        (call.is_write = false ↔ operation = 4)) := by
  refine ⟨⟨_, prepare_transactions_eq c draws, ?_⟩, rfl, ?_⟩
  · intro call hcall
    simp only [List.mem_map, List.mem_range] at hcall
    obtain ⟨k, -, rfl⟩ := hcall
    exact ⟨rfl, rfl, _, _, rfl⟩
  · intro operation r i call h
    unfold prepare_step at h
    split at h
    · simp at h
    · split at h
      · simp at h
      · simp only [Outcome.returned.injEq] at h
        subst h
        simp

/-! ## Theorems: parameter check -/

/-- Claim C12 (as amended): when the base-class check passes, `verify_params` throws if and only
if `expected` has a top-level "accounts" field that either is not a number (the conversion
`get<size_t>()` throws, whatever `partition_clients` is) or converts to a count different from
`options.total_accounts` while `partition_clients` is false; in the latter case it throws the
`runtime_error` naming the two counts. In every other case (field absent, counts equal, or
`partition_clients` set with a numeric field) it returns. -/
theorem verify_params_throws_iff (env : Env) (base_verify_params : Json → Except Exn Unit)
    (c : SmallBankClient) (expected : Json)
    (hbase : base_verify_params expected = Except.ok ()) :
    ((∃ e, verify_params env base_verify_params c expected = Except.error e) ↔
        ∃ it, expected.find "accounts" = some it ∧
          ((∃ e, it.get_size_t env = Except.error e) ∨
            ∃ n, it.get_size_t env = Except.ok n ∧ n ≠ c.options.total_accounts ∧
              c.options.partition_clients = false)) ∧
      (∀ it n, expected.find "accounts" = some it → it.get_size_t env = Except.ok n →
        n ≠ c.options.total_accounts → c.options.partition_clients = false →
        verify_params env base_verify_params c expected =
          Except.error (Exn.runtime_error
            ("Verification file is only applicable for " ++ toString n ++
              " accounts, but currently have " ++ toString c.options.total_accounts))) ∧
      ((¬ ∃ e, verify_params env base_verify_params c expected = Except.error e) →
        verify_params env base_verify_params c expected = Except.ok ()) := by
  cases hfind : expected.find "accounts" with
  | none =>
    have hv : verify_params env base_verify_params c expected = Except.ok () := by
      simp [verify_params, hbase, hfind, pure, Except.pure]
    refine ⟨⟨?_, ?_⟩, ?_, fun _ => hv⟩
    · rintro ⟨e, he⟩
      rw [hv] at he
      cases he
    · rintro ⟨it, hit, -⟩
      cases hit
    · intro it n hit
      cases hit
  | some it =>
    cases hget : it.get_size_t env with
    | error x =>
      have hv : verify_params env base_verify_params c expected = Except.error x := by
        simp [verify_params, hbase, hfind, hget]
      refine ⟨⟨fun _ => ⟨it, rfl, Or.inl ⟨x, hget⟩⟩, fun _ => ⟨x, hv⟩⟩, ?_, ?_⟩
      · intro it1 n hit hg
        cases hit
        rw [hget] at hg
        cases hg
      · intro h
        exact absurd ⟨x, hv⟩ h
    | ok n =>
      by_cases hcond : n ≠ c.options.total_accounts ∧ c.options.partition_clients = false
      · obtain ⟨hne, hpc⟩ := hcond
        have hv : verify_params env base_verify_params c expected =
            Except.error (Exn.runtime_error
              ("Verification file is only applicable for " ++ toString n ++
                " accounts, but currently have " ++ toString c.options.total_accounts)) := by
          simp [verify_params, hbase, hfind, hget, hne, hpc, throw, throwThe,
            MonadExceptOf.throw]
        refine ⟨⟨fun _ => ⟨it, rfl, Or.inr ⟨n, hget, hne, hpc⟩⟩, fun _ => ⟨_, hv⟩⟩, ?_, ?_⟩
        · intro it1 n1 hit hg _ _
          cases hit
          rw [hget] at hg
          cases hg
          exact hv
        · intro h
          exact absurd ⟨_, hv⟩ h
      · have hv : verify_params env base_verify_params c expected = Except.ok () := by
          by_cases hne : n ≠ c.options.total_accounts
          · have hpc : c.options.partition_clients = true := by
              cases h : c.options.partition_clients
              · exact absurd ⟨hne, h⟩ hcond
              · rfl
            simp [verify_params, hbase, hfind, hget, hne, hpc, pure, Except.pure]
          · have heq : n = c.options.total_accounts := by
              by_contra h
              exact hne h
            simp [verify_params, hbase, hfind, hget, heq, pure, Except.pure]
        refine ⟨⟨?_, ?_⟩, ?_, fun _ => hv⟩
        · rintro ⟨e, he⟩
          rw [hv] at he
          cases he
        · rintro ⟨it1, hit, h⟩
          cases hit
          rcases h with ⟨e, he⟩ | ⟨n1, hn1, hne, hpc⟩
          · rw [hget] at he
            cases he
          · rw [hget] at hn1
            cases hn1
            exact absurd ⟨hne, hpc⟩ hcond
        · intro it1 n1 hit hg hne hpc
          cases hit
          rw [hget] at hg
          cases hg
          exact absurd ⟨hne, hpc⟩ hcond

/-- Witness for C12 (as amended): with 10 accounts and no partitioning, the fixture
`{accounts: 11}` is rejected with the message naming 11 and 10. -/
theorem verify_params_throws_iff_witness :
    verify_params demo_env demo_base_verify_params demo_client
        (Json.object [("accounts", Json.number_unsigned 11)]) =
      Except.error (Exn.runtime_error
        "Verification file is only applicable for 11 accounts, but currently have 10") :=
  ((verify_params_throws_iff demo_env demo_base_verify_params demo_client
      (Json.object [("accounts", Json.number_unsigned 11)]) rfl).2.1
    (Json.number_unsigned 11) 11 rfl rfl (by decide) rfl).trans rfl

/-- Counterexample to C12 as stated: the fixture `{accounts: "10"}` with `partition_clients`
set and a base-class check that passes. The claim says `verify_params` does not throw when
`partition_clients` is set; it throws the `type_error` of `get<size_t>()`. -/
theorem verify_params_throws_with_partitioning :
    demo_base_verify_params demo_params_text_count = Except.ok () ∧
      demo_client_partitioned.options.partition_clients = true ∧
      verify_params demo_env demo_base_verify_params demo_client_partitioned
          demo_params_text_count = Except.error (Exn.type_error "type must be number") :=
  ⟨rfl, rfl, rfl⟩

/-! ## Theorems: label independence and failed queries -/

theorem verify_entries_cons_of_account_error (env : Env) (conn : Connection) (label : String)
    (e : Json) (rest : List Json) (log : List Request) (ja jb : Json) (x : Exn)
    (hja : e.find "account" = some ja) (hjb : e.find "balance" = some jb)
    (ha : ja.get_size_t env = Except.error x) :
    verify_entries env conn label (e :: rest) log = (Except.error x, log) := by
  simp only [verify_entries, hja, hjb, ha]

theorem verify_entries_cons_of_failed_query (env : Env) (conn : Connection) (label : String)
    (e : Json) (rest : List Json) (log : List Request) (ja jb : Json) (a : Nat)
    (hja : e.find "account" = some ja) (hjb : e.find "balance" = some jb)
    (ha : ja.get_size_t env = Except.ok a)
    (hs : env.status_success (conn log (balance_request a)).status = false) :
    verify_entries env conn label (e :: rest) log =
      (Except.error (Exn.runtime_error ("Error in verification response: " ++
        env.get_error (conn log (balance_request a)))), log ++ [balance_request a]) := by
  simp only [verify_entries, hja, hjb, ha, hs, if_true, throw, throwThe, MonadExceptOf.throw]

theorem verify_entries_cons_of_balance_error (env : Env) (conn : Connection) (label : String)
    (e : Json) (rest : List Json) (log : List Request) (ja jb : Json) (a : Nat) (x : Exn)
    (hja : e.find "account" = some ja) (hjb : e.find "balance" = some jb)
    (ha : ja.get_size_t env = Except.ok a)
    (hs : ¬ env.status_success (conn log (balance_request a)).status = false)
    (hb : jb.get_int64 env = Except.error x) :
    verify_entries env conn label (e :: rest) log = (Except.error x, log ++ [balance_request a]) := by
  have hs1 : env.status_success (conn log (balance_request a)).status = true := by
    simpa using hs
  simp [verify_entries, hja, hjb, ha, hs1, hb]

theorem verify_entries_agree (env : Env) (conn : Connection) (l1 l2 : String)
    (entries : List Json) (log : List Request) :
    agree_up_to_label env l1 l2 (verify_entries env conn l1 entries log)
      (verify_entries env conn l2 entries log) := by
  induction entries generalizing log with
  | nil => exact ⟨rfl, Or.inl rfl⟩
  | cons e es ih =>
    cases hja : e.find "account" with
    | none =>
      have hh : ¬ has_fields e := by simp [has_fields, hja]
      rw [verify_entries_cons_of_not_has_fields env conn l1 e es log hh,
        verify_entries_cons_of_not_has_fields env conn l2 e es log hh]
      exact ⟨rfl, Or.inr ⟨e, rfl, rfl⟩⟩
    | some ja =>
      cases hjb : e.find "balance" with
      | none =>
        have hh : ¬ has_fields e := by simp [has_fields, hjb]
        rw [verify_entries_cons_of_not_has_fields env conn l1 e es log hh,
          verify_entries_cons_of_not_has_fields env conn l2 e es log hh]
        exact ⟨rfl, Or.inr ⟨e, rfl, rfl⟩⟩
      | some jb =>
        cases ha : ja.get_size_t env with
        | error x =>
          rw [verify_entries_cons_of_account_error env conn l1 e es log ja jb x hja hjb ha,
            verify_entries_cons_of_account_error env conn l2 e es log ja jb x hja hjb ha]
          exact ⟨rfl, Or.inl rfl⟩
        | ok a =>
          by_cases hs : env.status_success (conn log (balance_request a)).status = false
          · rw [verify_entries_cons_of_failed_query env conn l1 e es log ja jb a hja hjb ha hs,
              verify_entries_cons_of_failed_query env conn l2 e es log ja jb a hja hjb ha hs]
            exact ⟨rfl, Or.inl rfl⟩
          · cases hb : jb.get_int64 env with
            | error x =>
              rw [verify_entries_cons_of_balance_error env conn l1 e es log ja jb a x hja hjb ha
                  hs hb,
                verify_entries_cons_of_balance_error env conn l2 e es log ja jb a x hja hjb ha
                  hs hb]
              exact ⟨rfl, Or.inl rfl⟩
            | ok b =>
              have hf : entry_fields env e = some (a, b) := by
                simp [entry_fields, hja, hjb, ha, hb]
              rw [verify_entries_cons_of_fields env conn l1 e es log a b hf,
                verify_entries_cons_of_fields env conn l2 e es log a b hf, if_neg hs, if_neg hs]
              by_cases hm : b ≠ env.balance (conn log (balance_request a)).body
              · rw [if_pos hm, if_pos hm]
                exact ⟨rfl, Or.inl rfl⟩
              · rw [if_neg hm, if_neg hm]
                exact ih _

/-- Claim C15: the checkpoint label does not influence verification. For every expected value,
every service and any two labels, the two runs of `verify_state` make the same calls and end
the same way: both return, or both throw the same exception, or both throw the schema error
about the same value, whose text alone carries the label. This holds in particular for
`verify_initial_state` ("Initial") and `verify_final_state` ("Final"). -/
theorem verify_state_label_independent (env : Env) (conn : Connection) (l1 l2 : String)
    (expected : Json) :
    agree_up_to_label env l1 l2 (verify_state env conn l1 expected)
        (verify_state env conn l2 expected) ∧
      agree_up_to_label env "Initial" "Final" (verify_initial_state env conn expected)
        (verify_final_state env conn expected) ∧
      ((verify_state env conn l1 expected).1 = Except.ok () ↔
        (verify_state env conn l2 expected).1 = Except.ok ()) ∧
      (verify_state env conn l1 expected).2 = (verify_state env conn l2 expected).2 := by
  have key : ∀ a b : String, agree_up_to_label env a b (verify_state env conn a expected)
      (verify_state env conn b expected) := by
    intro a b
    cases expected with
    | array entries =>
      rw [verify_state_array, verify_state_array]
      exact verify_entries_agree env conn a b entries []
    | null => exact ⟨rfl, Or.inl rfl⟩
    | boolean v => exact ⟨rfl, Or.inr ⟨_, rfl, rfl⟩⟩
    | number_integer v => exact ⟨rfl, Or.inr ⟨_, rfl, rfl⟩⟩
    | number_unsigned v => exact ⟨rfl, Or.inr ⟨_, rfl, rfl⟩⟩
    | number_float v => exact ⟨rfl, Or.inr ⟨_, rfl, rfl⟩⟩
    | string v => exact ⟨rfl, Or.inr ⟨_, rfl, rfl⟩⟩
    | object v => exact ⟨rfl, Or.inr ⟨_, rfl, rfl⟩⟩
  refine ⟨key l1 l2, key "Initial" "Final", ?_, (key l1 l2).1⟩
  rcases (key l1 l2).2 with h | ⟨j, h1, h2⟩
  · rw [h]
  · rw [h1, h2]
    constructor <;> intro h <;> cases h

/-- Claim C18: in `verify_state`, when the entries before an entry verify and the balance query
for that entry returns a status that is not a success, verification throws the
`runtime_error` "Error in verification response: ..." whatever the response body is (the body
is not matched against the messages `check_response` accepts). The entry's expected balance
is not read or compared, and the query is the last call made. -/
theorem verify_state_aborts_on_failed_query (env : Env) (conn : Connection) (label : String)
    (pre post : List Json) (e ja jb : Json) (a : Nat) (calls : List Request)
    (hpre : verify_state env conn label (Json.array pre) = (Except.ok (), calls))
    (hja : e.find "account" = some ja) (hjb : e.find "balance" = some jb)
    (ha : ja.get_size_t env = Except.ok a)
    (hfail : env.status_success (conn calls (balance_request a)).status = false) :
    verify_state env conn label (Json.array (pre ++ e :: post)) =
      (Except.error (Exn.runtime_error ("Error in verification response: " ++
        env.get_error (conn calls (balance_request a)))), calls ++ [balance_request a]) := by
  rw [verify_state_array] at hpre ⊢
  rw [verify_entries_append_ok env conn label pre (e :: post) [] calls hpre,
    verify_entries_cons_of_failed_query env conn label e post calls ja jb a hja hjb ha hfail]

/-- Witness for C18: a service answering status 400 with the body "Not enough money in savings
account". `check_response` accepts that response, and `verify_state` aborts on it after the
single query for account 1; account 2 is not queried. -/
theorem verify_state_aborts_on_failed_query_witness :
    check_response demo_env (demo_conn_rejecting [] (balance_request 1)) = Except.ok true ∧
      verify_state demo_env demo_conn_rejecting "Final" (Json.array demo_entries) =
        (Except.error (Exn.runtime_error
          "Error in verification response: Not enough money in savings account"),
          [balance_request 1]) :=
  ⟨rfl,
    (verify_state_aborts_on_failed_query demo_env demo_conn_rejecting "Final" []
      (demo_entries.drop 1) (demo_entries.getD 0 Json.null) (Json.number_unsigned 1)
      (Json.number_integer 100) 1 [] rfl rfl rfl rfl rfl).trans rfl⟩

/-! ## Theorems: the Amalgamate shift, the range size and the amounts -/

theorem constructed_to_eq (o : SmallBankClientOptions)
    (hfit : o.partition_clients = true →
      o.client_id * o.total_accounts + o.total_accounts < SIZE_T_MOD) :
    (SmallBankClient.new o).to_ = (SmallBankClient.new o).from_ + o.total_accounts := by
  cases hpc : o.partition_clients
  · simp [SmallBankClient.new, hpc]
  · have h := hfit hpc
    have h1 : o.client_id * o.total_accounts < SIZE_T_MOD := by omega
    simp [SmallBankClient.new, hpc, Nat.mod_eq_of_lt h1, Nat.mod_eq_of_lt h]

theorem constructed_from_add_lt (o : SmallBankClientOptions)
    (hsz : o.total_accounts < SIZE_T_MOD)
    (hfit : o.partition_clients = true →
      o.client_id * o.total_accounts + o.total_accounts < SIZE_T_MOD) :
    (SmallBankClient.new o).from_ + o.total_accounts < SIZE_T_MOD := by
  cases hpc : o.partition_clients
  · simpa [SmallBankClient.new, hpc] using hsz
  · have h := hfit hpc
    have h1 : o.client_id * o.total_accounts < SIZE_T_MOD := by omega
    simpa [SmallBankClient.new, hpc, Nat.mod_eq_of_lt h1] using h

/-- Claim C17: for every `total_accounts` (a `size_t`), `client_id` and partition flag such that
`client_id*total_accounts + total_accounts` does not overflow when partitioning is on, the
constructed range satisfies `from <= to` and `to - from = total_accounts`; the accounts
`from + d` for the draws `d` in `[0, total_accounts)`, which are the accounts the requests of
`prepare_transactions` name, are exactly the owned accounts `[from, to)`; and `send_creation_transactions` makes the single call "SmallBank_create_batch"
for `(from, to)` with checking and savings balance 1000, a range of exactly `total_accounts`
identifiers, the owned ones. -/
theorem constructed_range_size (env : Env) (conn : Connection) (o : SmallBankClientOptions)
    (hsz : o.total_accounts < SIZE_T_MOD)
    (hfit : o.partition_clients = true →
      o.client_id * o.total_accounts + o.total_accounts < SIZE_T_MOD) :
    (SmallBankClient.new o).from_ ≤ (SmallBankClient.new o).to_ ∧
      (SmallBankClient.new o).to_ - (SmallBankClient.new o).from_ = o.total_accounts ∧
      (∀ x, (SmallBankClient.new o).owns x ↔
        ∃ d, d < o.total_accounts ∧ drawn_account (SmallBankClient.new o) d = x) ∧
      (∀ r i, prepare_step (SmallBankClient.new o) 0 r i =
        Outcome.returned
          { method := "SmallBank_transact_savings",
            params := Payload.transaction
              (toString (drawn_account (SmallBankClient.new o) r.account)) r.amount,
            is_write := true, index := i }) ∧
      (send_creation_transactions env conn (SmallBankClient.new o)).2 =
        [{ method := "SmallBank_create_batch",
           payload := Payload.accounts (SmallBankClient.new o).from_ (SmallBankClient.new o).to_
             1000 1000 }] ∧
      (Finset.Ico (SmallBankClient.new o).from_ (SmallBankClient.new o).to_).card =
        o.total_accounts ∧
      (∀ x, x ∈ Finset.Ico (SmallBankClient.new o).from_ (SmallBankClient.new o).to_ ↔
        (SmallBankClient.new o).owns x) := by
  have hto := constructed_to_eq o hfit
  have hlt := constructed_from_add_lt o hsz hfit
  refine ⟨by omega, by omega, ?_, fun r i => prepare_step_zero _ r i, ?_, ?_, ?_⟩
  · intro x
    unfold SmallBankClient.owns
    rw [hto]
    constructor
    · rintro ⟨h1, h2⟩
      refine ⟨x - (SmallBankClient.new o).from_, by omega, ?_⟩
      unfold drawn_account
      have e : (SmallBankClient.new o).from_ + (x - (SmallBankClient.new o).from_) = x := by
        omega
      rw [e]
      exact Nat.mod_eq_of_lt (by omega)
    · rintro ⟨d, hd, rfl⟩
      have e : drawn_account (SmallBankClient.new o) d = (SmallBankClient.new o).from_ + d := by
        unfold drawn_account
        exact Nat.mod_eq_of_lt (by omega)
      rw [e]
      omega
  · unfold send_creation_transactions
    simp only
    split <;> rfl
  · rw [Nat.card_Ico]
    omega
  · intro x
    simp [Finset.mem_Ico, SmallBankClient.owns]

/-- Witness for C17: client 3 of a partitioned run with 10 accounts per client owns `[30, 40)`,
and its creation request is for `(30, 40)` with balances 1000. -/
theorem constructed_range_size_witness :
    demo_client_partitioned.to_ - demo_client_partitioned.from_ = 10 ∧
      (send_creation_transactions demo_env demo_conn_zero demo_client_partitioned).2 =
        [{ method := "SmallBank_create_batch", payload := Payload.accounts 30 40 1000 1000 }] :=
  have h := constructed_range_size demo_env demo_conn_zero
    { total_accounts := 10, partition_clients := true, client_id := 3, num_transactions := 3 }
    (by decide) (fun _ => by decide)
  ⟨h.2.1, h.2.2.2.2.1.trans rfl⟩

/-- Claim C19: with `rand_range(n)` returning a value in `[0, n)` and `rand_range(lo, hi)` a value
in `[lo, hi)`, the amounts the branches can produce are exactly `-50..49` for TransactSavings,
`0..49` for WriteCheck and `1..50` for DepositChecking: an amount is produced by some draw if
and only if it lies in that set, so 50, 50 and 51 respectively are never produced. -/
theorem generated_amount_sets (c : SmallBankClient) (v : Int) :
    ((∃ r name, rand_range2_returns (-50) 50 r.amount ∧
          request_payload c 0 r = Except.ok (Payload.transaction name v)) ↔
        -50 ≤ v ∧ v ≤ 49) ∧
      ((∃ r name, rand_range_returns 50 r.amount ∧
          request_payload c 2 r = Except.ok (Payload.transaction name v)) ↔
        0 ≤ v ∧ v ≤ 49) ∧
      ((∃ r name, rand_range_returns 50 r.amount ∧
          request_payload c 3 r = Except.ok (Payload.transaction name v)) ↔
        1 ≤ v ∧ v ≤ 50) := by
  refine ⟨⟨?_, ?_⟩, ⟨?_, ?_⟩, ⟨?_, ?_⟩⟩
  · rintro ⟨r, name, ⟨h1, h2⟩, h⟩
    simp only [request_payload, pure, Except.pure, Except.ok.injEq, Payload.transaction.injEq] at h
    omega
  · rintro ⟨h1, h2⟩
    exact ⟨{ account := 0, other := 0, amount := v }, _, ⟨h1, by show v < 50; omega⟩, rfl⟩
  · rintro ⟨r, name, ⟨h1, h2⟩, h⟩
    simp only [request_payload, pure, Except.pure, Except.ok.injEq, Payload.transaction.injEq] at h
    omega
  · rintro ⟨h1, h2⟩
    exact ⟨{ account := 0, other := 0, amount := v }, _, ⟨h1, by show v < 50; omega⟩, rfl⟩
  · rintro ⟨r, name, ⟨h1, h2⟩, h⟩
    simp only [request_payload, pure, Except.pure, Except.ok.injEq, Payload.transaction.injEq] at h
    omega
  · rintro ⟨h1, h2⟩
    have h3 : rand_range_returns 50 (v - 1) := ⟨by omega, by omega⟩
    refine ⟨{ account := 0, other := 0, amount := v - 1 }, toString (drawn_account c 0), h3, ?_⟩
    show Except.ok (Payload.transaction (toString (drawn_account c 0)) (v - 1 + 1)) = _
    rw [Int.sub_add_cancel]

end SmallBank
